import Mathlib

/-!
# SimplePinger: a verification development

A shallow embedding of `src/SimplePinger.cpp` / `src/SimplePinger.h` (an Arduino
driver for the HC-SR04 ultrasonic range finder) and theorems about it.

Target: AVR (`#include <avr/io.h>`), so `unsigned int` / `int` are 16 bits and
`unsigned long` / `long` are 32 bits.  Machine integers are natural numbers (or
integers for `long` / `int`) with explicit reductions modulo `2^16` / `2^32`.

Hardware is an oracle: every hardware access made by the driver (a read of
`millis()`, of `micros()`, of the echo input register, a write of the trigger
output register, a `delayMicroseconds`) happens at a *tick*; the environment
`env : Nat → Sample` says what the clocks and the echo line are at each tick, and
the hardware state records the tick reached and the chronological list of
accesses.  Busy-wait loops take fuel; `none` means the loop was still spinning
when the fuel ran out.
-/

namespace SimplePinger

/-! ## Machine integers -/

/-- Number of values of a 32-bit `unsigned long`. -/
def U32 : Nat := 4294967296

/-- Number of values of a 16-bit `unsigned int`. -/
def U16 : Nat := 65536

/-- Unsigned 32-bit addition. -/
def add32 (a b : Nat) : Nat := (a + b) % U32

/-- Unsigned 32-bit subtraction `a - b`. -/
def sub32 (a b : Nat) : Nat := (a % U32 + (U32 - b % U32)) % U32

/-- Unsigned 32-bit multiplication. -/
def mul32 (a b : Nat) : Nat := (a * b) % U32

/-- Conversion `long(x)` of an `unsigned long` (two's complement). -/
def toLong (x : Nat) : Int :=
  if x % U32 < 2147483648 then ((x % U32 : Nat) : Int) else ((x % U32 : Nat) : Int) - 4294967296

/-- Conversion of a `long` to `unsigned long`. -/
def toULong (i : Int) : Nat := (i % 4294967296).toNat

/-- Conversion of an `unsigned int` to `int` (two's complement, 16 bits). -/
def toInt16 (x : Nat) : Int :=
  if x % U16 < 32768 then ((x % U16 : Nat) : Int) else ((x % U16 : Nat) : Int) - 65536

/-! ## Constants of `SimplePinger.h` -/

def SIMPLEPINGER_MAXTIMEOUT : Nat := 1000000

def SIMPLEPINGER_TRIGGERMODE_ALWAYS : Nat := 0
def SIMPLEPINGER_TRIGGERMODE_NONBLOCKING : Nat := 1
def SIMPLEPINGER_TRIGGERMODE_BLOCKING : Nat := 2

def SIMPLEPINGER_ERROR_NONE : Int := 0
def SIMPLEPINGER_ERROR_SUBSTITUTE : Int := -1
def SIMPLEPINGER_ERROR_UNREADY : Int := -2
def SIMPLEPINGER_ERROR_OOR : Int := -3
def SIMPLEPINGER_ERROR_HARDFAIL : Int := -10
def SIMPLEPINGER_ERROR_INVALID : Int := -100

/-! ## Hardware oracle -/

/-- What the hardware shows at one tick: the milliseconds and microseconds elapsed
since reset (unbounded; the driver reads them through 32-bit counters) and the level
of the echo input. -/
structure Sample where
  millis : Nat
  micros : Nat
  echo : Bool
  deriving DecidableEq

/-- One hardware access of the driver. -/
inductive HwOp where
  | readMillis : HwOp
  | readMicros : HwOp
  | readEcho : HwOp
  | pinModeOutput : HwOp
  | writeTrigger (high : Bool) : HwOp
  | delayMicroseconds (us : Nat) : HwOp
  deriving DecidableEq

/-- Hardware state: the tick of the next access and the accesses made so far, oldest
first. -/
structure Hw where
  tick : Nat
  log : List HwOp
  deriving DecidableEq

/-- Perform one access: log it and move to the next tick. -/
def Hw.step (hw : Hw) (op : HwOp) : Hw :=
  { tick := hw.tick + 1, log := hw.log ++ [op] }

/-- Arduino `millis()`: the millisecond counter as a 32-bit `unsigned long`. -/
def millis (env : Nat → Sample) (hw : Hw) : Nat × Hw :=
  ((env hw.tick).millis % U32, hw.step HwOp.readMillis)

/-- Arduino `micros()`: the microsecond counter as a 32-bit `unsigned long`. -/
def micros (env : Nat → Sample) (hw : Hw) : Nat × Hw :=
  ((env hw.tick).micros % U32, hw.step HwOp.readMicros)

/-- The test `*_echoInput & _echoBit`: is the echo line high? -/
def echoHigh (env : Nat → Sample) (hw : Hw) : Bool × Hw :=
  ((env hw.tick).echo, hw.step HwOp.readEcho)

/-- Modelled from the spec: the Arduino `min(a,b)` macro of `Arduino.h` (not under
src/), the smaller of its two arguments. -/
def min (a b : Nat) : Nat := if a < b then a else b

end SimplePinger

/-- Private member variables of `class SimplePinger` (`SimplePinger.h` lines 141-154);
the four hardware handles are represented by the oracle. -/
structure SimplePinger where
  _lastRange : Nat
  _lastError : Int
  _lastPingTime : Nat
  _speedOfSound : Nat
  _triggerMode : Nat
  _waitUntilQuiet : Bool
  _maxRange_mm : Nat
  _maxRange_us : Nat
  _minTriggerPeriod_ms : Nat
  _maxSensorDelay_us : Nat
  deriving DecidableEq

namespace SimplePinger

/-! ## Setters and getters (`SimplePinger.cpp` lines 126-155) -/

/-- Source `int getRange()`: `_lastRange` converted to `int`. -/
def getRange (s : SimplePinger) : Int := toInt16 s._lastRange

/-- Source `int getLastError()`. -/
def getLastError (s : SimplePinger) : Int := s._lastError

/-- The expression `long(mm) * 2000L / long(speed)` stored into the `unsigned long`
`_maxRange_us`; `none` when the divisor is zero (undefined behaviour in C++).  The
product cannot overflow a `long` because `mm` is a 16-bit `unsigned int`. -/
def roundTrip_us (mm speed : Nat) : Option Nat :=
  if toLong speed = 0 then none
  else some (toULong (Int.tdiv (toLong (mm % U16) * 2000) (toLong speed)))

/-- Source `void setMaxRange(unsigned int maxRange_mm)`, lines 134-137. -/
def setMaxRange (s : SimplePinger) (maxRange_mm : Nat) : Option SimplePinger :=
  match roundTrip_us (maxRange_mm % U16) s._speedOfSound with
  | none => none
  | some us => some { s with _maxRange_mm := maxRange_mm % U16, _maxRange_us := us }

/-- Source `void setSpeedOfSound(unsigned int speedOfSound)`, lines 139-143. -/
def setSpeedOfSound (s : SimplePinger) (speedOfSound : Nat) : Option SimplePinger :=
  match roundTrip_us s._maxRange_mm (speedOfSound % U16) with
  | none => none
  | some us => some { s with _speedOfSound := speedOfSound % U16, _maxRange_us := us }

/-- Source `void setTriggerMode(uint8_t triggerMode)`. -/
def setTriggerMode (s : SimplePinger) (triggerMode : Nat) : SimplePinger :=
  { s with _triggerMode := triggerMode % 256 }

/-- Source `void setMinTriggerPeriod(unsigned long minTriggerPeriod_ms)`. -/
def setMinTriggerPeriod (s : SimplePinger) (minTriggerPeriod_ms : Nat) : SimplePinger :=
  { s with _minTriggerPeriod_ms := minTriggerPeriod_ms % U32 }

/-- Source `void setWaitUntilQuiet(boolean waitUntilQuiet)`. -/
def setWaitUntilQuiet (s : SimplePinger) (waitUntilQuiet : Bool) : SimplePinger :=
  { s with _waitUntilQuiet := waitUntilQuiet }

/-! ## The two-pin constructor (`SimplePinger.cpp` lines 38-61) -/

/-- Source `SimplePinger(uint8_t triggerPin, uint8_t echoPin)`.  `_lastRange` is not
initialised by the constructor: `uninit` is the indeterminate value it holds. -/
def construct (env : Nat → Sample) (uninit : Nat) (hw : Hw) : Option (SimplePinger × Hw) :=
  let s0 : SimplePinger :=
    { _lastRange := uninit % U16
      _lastError := SIMPLEPINGER_ERROR_INVALID
      _lastPingTime := 0
      _speedOfSound := 340
      _triggerMode := SIMPLEPINGER_TRIGGERMODE_ALWAYS
      _waitUntilQuiet := false
      _maxRange_mm := 0
      _maxRange_us := 0
      _minTriggerPeriod_ms := 0
      _maxSensorDelay_us := 0 }
  let hw1 := hw.step HwOp.pinModeOutput
  let hw2 := hw1.step (HwOp.writeTrigger false)
  match setMaxRange s0 4000 with
  | none => none
  | some s1 =>
    let s2 := { s1 with _minTriggerPeriod_ms := 60, _maxSensorDelay_us := 250 }
    let (now, hw3) := millis env hw2
    some ({ s2 with _lastPingTime := sub32 now s2._minTriggerPeriod_ms }, hw3)

/-! ## `boolean ping()` (`SimplePinger.cpp` lines 63-124) -/

/-- Line 67, `while(millis()-_lastPingTime < _minTriggerPeriod_ms);`: returns the
hardware state at loop exit. -/
def waitMinPeriod (env : Nat → Sample) (s : SimplePinger) : Nat → Hw → Option Hw
  | 0, _ => none
  | fuel + 1, hw =>
    let (now, hw1) := millis env hw
    if sub32 now s._lastPingTime < s._minTriggerPeriod_ms then waitMinPeriod env s fuel hw1
    else some hw1

/-- Outcome of the retrigger-interval policy (lines 65-74). -/
inductive Retrigger where
  | proceed (hw : Hw) : Retrigger
  | substitute (hw : Hw) : Retrigger
  deriving DecidableEq

/-- Lines 65-74: the check on the time since the last ping, by trigger mode. -/
def retriggerPolicy (env : Nat → Sample) (fuel : Nat) (s : SimplePinger) (hw : Hw) :
    Option Retrigger :=
  if s._triggerMode = SIMPLEPINGER_TRIGGERMODE_BLOCKING then
    match waitMinPeriod env s fuel hw with
    | none => none
    | some hw1 => some (Retrigger.proceed hw1)
  else if s._triggerMode = SIMPLEPINGER_TRIGGERMODE_NONBLOCKING then
    let (now, hw1) := millis env hw
    if sub32 now s._lastPingTime < s._minTriggerPeriod_ms then some (Retrigger.substitute hw1)
    else some (Retrigger.proceed hw1)
  else some (Retrigger.proceed hw)

/-- Outcome of the echo-line readiness policy (lines 77-90). -/
inductive Readiness where
  | quiet (hw : Hw) : Readiness
  | unready (hw : Hw) : Readiness
  | hardFail (hw : Hw) : Readiness
  deriving DecidableEq

/-- Lines 79-84: wait for the echo line to go low, giving up once
`micros()-startWait > SIMPLEPINGER_MAXTIMEOUT`. -/
def waitQuiet (env : Nat → Sample) (startWait : Nat) : Nat → Hw → Option Readiness
  | 0, _ => none
  | fuel + 1, hw =>
    let (high, hw1) := echoHigh env hw
    if high then
      let (now, hw2) := micros env hw1
      if sub32 now startWait > SIMPLEPINGER_MAXTIMEOUT then some (Readiness.hardFail hw2)
      else waitQuiet env startWait fuel hw2
    else some (Readiness.quiet hw1)

/-- Lines 77-90: check that the echo pin is low, according to `_waitUntilQuiet`. -/
def readinessPolicy (env : Nat → Sample) (fuel : Nat) (s : SimplePinger) (hw : Hw) :
    Option Readiness :=
  if s._waitUntilQuiet then
    let (startWait, hw1) := micros env hw
    waitQuiet env startWait fuel hw1
  else
    let (high, hw1) := echoHigh env hw
    if high then some (Readiness.unready hw1) else some (Readiness.quiet hw1)

/-- Lines 93-95: trigger pin high, `delayMicroseconds(11)`, trigger pin low. -/
def emitPulse (hw : Hw) : Hw :=
  ((hw.step (HwOp.writeTrigger true)).step (HwOp.delayMicroseconds 11)).step
    (HwOp.writeTrigger false)

/-- Outcome of the wait for the echo to start (lines 100-105). -/
inductive EchoStart where
  | started (hw : Hw) : EchoStart
  | timedOut (hw : Hw) : EchoStart
  deriving DecidableEq

/-- Lines 100-105: `while (!(*_echoInput & _echoBit)) if (micros() > timeout_us) ...`. -/
def waitEchoStart (env : Nat → Sample) (timeout_us : Nat) : Nat → Hw → Option EchoStart
  | 0, _ => none
  | fuel + 1, hw =>
    let (high, hw1) := echoHigh env hw
    if high then some (EchoStart.started hw1)
    else
      let (now, hw2) := micros env hw1
      if now > timeout_us then some (EchoStart.timedOut hw2)
      else waitEchoStart env timeout_us fuel hw2

/-- Line 110, `while (*_echoInput & _echoBit);`: returns the hardware state at loop
exit. -/
def waitEchoEnd (env : Nat → Sample) : Nat → Hw → Option Hw
  | 0, _ => none
  | fuel + 1, hw =>
    let (high, hw1) := echoHigh env hw
    if high then waitEchoEnd env fuel hw1 else some hw1

/-- Line 98: `min(_maxSensorDelay_us + _maxRange_us, SIMPLEPINGER_MAXTIMEOUT)`. -/
def echoStartWindow (s : SimplePinger) : Nat :=
  min (add32 s._maxSensorDelay_us s._maxRange_us) SIMPLEPINGER_MAXTIMEOUT

/-- Line 121: `echoLength * long(_speedOfSound) / 2000L` (an `unsigned long`
computation) stored into the 16-bit `unsigned int` `_lastRange`. -/
def rangeOfEcho (echoLength speedOfSound : Nat) : Nat :=
  (mul32 echoLength (toULong (toLong speedOfSound)) / 2000) % U16

/-- Lines 97-123: everything after the trigger pulse. -/
def measureEcho (env : Nat → Sample) (fuel : Nat) (s : SimplePinger) (hw : Hw) :
    Option (Bool × SimplePinger × Hw) :=
  let (now, hw1) := micros env hw
  let timeout_us := add32 (echoStartWindow s) now
  match waitEchoStart env timeout_us fuel hw1 with
  | none => none
  | some (EchoStart.timedOut hw2) =>
    some (false, { s with _lastError := SIMPLEPINGER_ERROR_OOR }, hw2)
  | some (EchoStart.started hw2) =>
    let (startMicros, hw3) := micros env hw2
    match waitEchoEnd env fuel hw3 with
    | none => none
    | some hw4 =>
      let (endMicros, hw5) := micros env hw4
      let echoLength := sub32 endMicros startMicros
      if echoLength > s._maxRange_us then
        some (false, { s with _lastError := SIMPLEPINGER_ERROR_OOR }, hw5)
      else
        some (true, { s with _lastRange := rangeOfEcho echoLength s._speedOfSound,
                             _lastError := SIMPLEPINGER_ERROR_NONE }, hw5)

/-- Source `boolean ping()`: the return value, the object afterwards and the hardware
afterwards; `none` when a busy-wait loop is still spinning after `fuel` iterations. -/
def ping (env : Nat → Sample) (fuel : Nat) (s : SimplePinger) (hw : Hw) :
    Option (Bool × SimplePinger × Hw) :=
  match retriggerPolicy env fuel s hw with
  | none => none
  | some (Retrigger.substitute hw1) =>
    some (true, { s with _lastError := SIMPLEPINGER_ERROR_SUBSTITUTE }, hw1)
  | some (Retrigger.proceed hw1) =>
    match readinessPolicy env fuel s hw1 with
    | none => none
    | some (Readiness.hardFail hw2) =>
      some (false, { s with _lastError := SIMPLEPINGER_ERROR_HARDFAIL }, hw2)
    | some (Readiness.unready hw2) =>
      some (false, { s with _lastError := SIMPLEPINGER_ERROR_UNREADY }, hw2)
    | some (Readiness.quiet hw2) => measureEcho env fuel s (emitPulse hw2)

/-! ## Histories of calls on one object -/

/-- A call of one of the public operations. -/
inductive Call where
  | ping : Call
  | setMaxRange (maxRange_mm : Nat) : Call
  | setSpeedOfSound (speedOfSound : Nat) : Call
  | setTriggerMode (triggerMode : Nat) : Call
  | setMinTriggerPeriod (minTriggerPeriod_ms : Nat) : Call
  | setWaitUntilQuiet (waitUntilQuiet : Bool) : Call
  deriving DecidableEq

/-- Perform one call; the setters touch no hardware. -/
def call (env : Nat → Sample) (fuel : Nat) (c : Call) (p : SimplePinger × Hw) :
    Option (SimplePinger × Hw) :=
  match c with
  | Call.ping =>
    match ping env fuel p.1 p.2 with
    | none => none
    | some r => some (r.2.1, r.2.2)
  | Call.setMaxRange mm =>
    match setMaxRange p.1 mm with
    | none => none
    | some s => some (s, p.2)
  | Call.setSpeedOfSound v =>
    match setSpeedOfSound p.1 v with
    | none => none
    | some s => some (s, p.2)
  | Call.setTriggerMode m => some (setTriggerMode p.1 m, p.2)
  | Call.setMinTriggerPeriod ms => some (setMinTriggerPeriod p.1 ms, p.2)
  | Call.setWaitUntilQuiet b => some (setWaitUntilQuiet p.1 b, p.2)

/-- Perform a list of calls, first to last. -/
def run (env : Nat → Sample) (fuel : Nat) : List Call → SimplePinger × Hw →
    Option (SimplePinger × Hw)
  | [], p => some p
  | c :: cs, p =>
    match call env fuel c p with
    | none => none
    | some q => run env fuel cs q

/-- The two-pin constructor followed by a list of calls. -/
def runFromConstructor (env : Nat → Sample) (fuel uninit : Nat) (hw : Hw)
    (cs : List Call) : Option (SimplePinger × Hw) :=
  match construct env uninit hw with
  | none => none
  | some p => run env fuel cs p

/-- A state an object can be in: produced by the two-pin constructor and a list of
calls. -/
def Reachable (s : SimplePinger) : Prop :=
  ∃ (env : Nat → Sample) (fuel uninit : Nat) (hw0 : Hw) (cs : List Call) (hw : Hw),
    runFromConstructor env fuel uninit hw0 cs = some (s, hw)

/-- The maximum range in force after a list of calls, starting from `d0`. -/
def lastMaxRangeFrom (d0 : Nat) (cs : List Call) : Nat :=
  cs.foldl (fun d c => match c with | Call.setMaxRange x => x | _ => d) d0

/-- The speed of sound in force after a list of calls, starting from `v0`. -/
def lastSpeedOfSoundFrom (v0 : Nat) (cs : List Call) : Nat :=
  cs.foldl (fun v c => match c with | Call.setSpeedOfSound x => x | _ => v) v0

/-- The most recently set maximum range of a history since construction (the
constructor sets 4000). -/
def lastMaxRange (cs : List Call) : Nat := lastMaxRangeFrom 4000 cs

/-- The most recently set speed of sound of a history since construction (the
constructor sets 340). -/
def lastSpeedOfSound (cs : List Call) : Nat := lastSpeedOfSoundFrom 340 cs

/-- The argument of a call fits the 16-bit `unsigned int` parameter of `setMaxRange`
or `setSpeedOfSound`, and a speed of sound is not zero. -/
def ArgInRange (c : Call) : Prop :=
  match c with
  | Call.setMaxRange d => d < 65536
  | Call.setSpeedOfSound v => 1 ≤ v ∧ v < 65536
  | _ => True

instance (c : Call) : Decidable (ArgInRange c) := by
  cases c <;> unfold ArgInRange <;> infer_instance

/-- The arguments of a history fit the 16-bit `unsigned int` parameters of
`setMaxRange` and `setSpeedOfSound`, and no speed of sound is zero. -/
def ArgsInRange (cs : List Call) : Prop :=
  ∀ c ∈ cs, ArgInRange c

/-- The co-dependency of the configuration: the speed of sound is a non-zero 16-bit
value, the maximum range a 16-bit value, and `_maxRange_us` the round-trip time. -/
def Consistent (s : SimplePinger) : Prop :=
  1 ≤ s._speedOfSound ∧ s._speedOfSound < 65536 ∧ s._maxRange_mm < 65536 ∧
    s._maxRange_us = s._maxRange_mm * 2000 / s._speedOfSound

/-- The echo a ping observes after its trigger pulse, where `t` is the tick at which
line 98 reads `micros()` for the timeout: the polls of the echo line are at ticks
`t+1, t+3, ...`, each low poll being followed by a clock reading; the line is low at
the first `k` polls with the clock not beyond the timeout, high at the next poll
(tick `t+1+2k`); line 107 reads the start time at tick `t+2+2k`; the polls of line
110 at ticks `t+3+2k, ...` find the line high `n` times, then low; line 112 reads
the end time at tick `t+4+2k+n`. -/
def EchoPulse (env : Nat → Sample) (s : SimplePinger) (t k n : Nat) : Prop :=
  (∀ j, j < k → (env (t + 1 + 2 * j)).echo = false ∧
    (env (t + 2 + 2 * j)).micros % U32 ≤ add32 (echoStartWindow s) ((env t).micros % U32)) ∧
  (env (t + 1 + 2 * k)).echo = true ∧
  (∀ i, i < n → (env (t + 3 + 2 * k + i)).echo = true) ∧
  (env (t + 3 + 2 * k + n)).echo = false

/-- The echo width measured by line 112 on such a trace. -/
def echoWidth (env : Nat → Sample) (t k n : Nat) : Nat :=
  sub32 ((env (t + 4 + 2 * k + n)).micros % U32) ((env (t + 2 + 2 * k)).micros % U32)

/-! ## Concrete traces -/

/-- The environment that shows the listed samples at ticks `0, 1, 2, ...`. -/
def trace (l : List Sample) (t : Nat) : Sample := l.getD t ⟨0, 0, false⟩

/-- Hardware before the constructor runs. -/
def hwBoot : Hw := ⟨0, []⟩

/-- Hardware after the constructor: its three accesses are made. -/
def hwBuilt : Hw := ⟨3, [HwOp.pinModeOutput, HwOp.writeTrigger false, HwOp.readMillis]⟩

/-- The object built by the constructor when `millis()` reads 1000 and `_lastRange`
happens to hold 7. -/
def sBuilt : SimplePinger :=
  { _lastRange := 7
    _lastError := SIMPLEPINGER_ERROR_INVALID
    _lastPingTime := 940
    _speedOfSound := 340
    _triggerMode := SIMPLEPINGER_TRIGGERMODE_ALWAYS
    _waitUntilQuiet := false
    _maxRange_mm := 4000
    _maxRange_us := 23529
    _minTriggerPeriod_ms := 60
    _maxSensorDelay_us := 250 }

/-- Construction one second after reset, then a ping one second later: the echo
starts 460 microseconds after the trigger pulse and lasts 1000 microseconds. -/
def envGood : Nat → Sample := trace
  [ ⟨1000, 1000000, false⟩,   -- 0  constructor: trigger pin to output
    ⟨1000, 1000004, false⟩,   -- 1  constructor: trigger low
    ⟨1000, 1000008, false⟩,   -- 2  constructor: millis()
    ⟨2000, 2000000, false⟩,   -- 3  ping: echo read (line 86)
    ⟨2000, 2000004, false⟩,   -- 4  trigger high
    ⟨2000, 2000008, false⟩,   -- 5  delayMicroseconds(11)
    ⟨2000, 2000020, false⟩,   -- 6  trigger low
    ⟨2000, 2000024, false⟩,   -- 7  micros() for the timeout
    ⟨2000, 2000028, false⟩,   -- 8  echo poll
    ⟨2000, 2000032, false⟩,   -- 9  micros()
    ⟨2000, 2000036, false⟩,   -- 10 echo poll
    ⟨2000, 2000040, false⟩,   -- 11 micros()
    ⟨2000, 2000480, true⟩,    -- 12 echo poll: started
    ⟨2000, 2000484, true⟩,    -- 13 micros(): start
    ⟨2000, 2000488, true⟩,    -- 14 echo poll
    ⟨2001, 2001000, true⟩,    -- 15 echo poll
    ⟨2001, 2001480, false⟩,   -- 16 echo poll: ended
    ⟨2001, 2001484, false⟩ ]  -- 17 micros(): end

/-- Hardware after the constructor and the ping of `envGood`. -/
def hwPinged : Hw :=
  { tick := 18,
    log := hwBuilt.log ++
      [HwOp.readEcho, HwOp.writeTrigger true, HwOp.delayMicroseconds 11,
       HwOp.writeTrigger false, HwOp.readMicros,
       HwOp.readEcho, HwOp.readMicros, HwOp.readEcho, HwOp.readMicros,
       HwOp.readEcho, HwOp.readMicros,
       HwOp.readEcho, HwOp.readEcho, HwOp.readEcho, HwOp.readMicros] }

/-- As `envGood`, but the echo line stays high for 30 milliseconds. -/
def envLong : Nat → Sample := trace
  [ ⟨1000, 1000000, false⟩,   -- 0  constructor: trigger pin to output
    ⟨1000, 1000004, false⟩,   -- 1  constructor: trigger low
    ⟨1000, 1000008, false⟩,   -- 2  constructor: millis()
    ⟨2000, 2000000, false⟩,   -- 3  ping: echo read (line 86)
    ⟨2000, 2000004, false⟩,   -- 4  trigger high
    ⟨2000, 2000008, false⟩,   -- 5  delayMicroseconds(11)
    ⟨2000, 2000020, false⟩,   -- 6  trigger low
    ⟨2000, 2000024, false⟩,   -- 7  micros() for the timeout
    ⟨2000, 2000028, false⟩,   -- 8  echo poll
    ⟨2000, 2000032, false⟩,   -- 9  micros()
    ⟨2000, 2000036, false⟩,   -- 10 echo poll
    ⟨2000, 2000040, false⟩,   -- 11 micros()
    ⟨2000, 2000480, true⟩,    -- 12 echo poll: started
    ⟨2000, 2000484, true⟩,    -- 13 micros(): start
    ⟨2000, 2000488, true⟩,    -- 14 echo poll
    ⟨2015, 2015000, true⟩,    -- 15 echo poll
    ⟨2030, 2030480, false⟩,   -- 16 echo poll: ended
    ⟨2030, 2030484, false⟩ ]  -- 17 micros(): end

/-- Construction one second after reset, then a call of `ping()` half a second later
while the echo line is high. -/
def envBusy : Nat → Sample := trace
  [ ⟨1000, 1000000, false⟩,   -- 0  constructor: trigger pin to output
    ⟨1000, 1000004, false⟩,   -- 1  constructor: trigger low
    ⟨1000, 1000008, false⟩,   -- 2  constructor: millis()
    ⟨1500, 1500000, true⟩,    -- 3  ping: first hardware access
    ⟨1500, 1500004, true⟩ ]   -- 4

/-- The object `sBuilt` after `setTriggerMode(SIMPLEPINGER_TRIGGERMODE_NONBLOCKING)`
and `setMinTriggerPeriod(1000)`. -/
def sNonBlocking : SimplePinger :=
  { sBuilt with _triggerMode := SIMPLEPINGER_TRIGGERMODE_NONBLOCKING,
                _minTriggerPeriod_ms := 1000 }

/-- A ping whose timeout is computed when the microsecond counter reads
`2^32 - 1 - 23779`, so that `timeout_us` is `2^32 - 1`; the counter wraps while the
driver waits, and the echo starts 36 milliseconds after the trigger pulse. -/
def envWrap : Nat → Sample := trace
  [ ⟨1000, 1000000, false⟩,          -- 0  constructor: trigger pin to output
    ⟨1000, 1000004, false⟩,          -- 1  constructor: trigger low
    ⟨1000, 1000008, false⟩,          -- 2  constructor: millis()
    ⟨4294943, 4294943492, false⟩,    -- 3  ping: echo read (line 86)
    ⟨4294943, 4294943496, false⟩,    -- 4  trigger high
    ⟨4294943, 4294943500, false⟩,    -- 5  delayMicroseconds(11)
    ⟨4294943, 4294943512, false⟩,    -- 6  trigger low
    ⟨4294943, 4294943516, false⟩,    -- 7  micros() for the timeout
    ⟨4294943, 4294943520, false⟩,    -- 8  echo poll
    ⟨4294955, 4294955516, false⟩,    -- 9  micros(): 12000 after tick 7
    ⟨4294955, 4294955520, false⟩,    -- 10 echo poll
    ⟨4294967, 4294967516, false⟩,    -- 11 micros(): 24000 after tick 7, reads 220
    ⟨4294967, 4294967520, false⟩,    -- 12 echo poll
    ⟨4294979, 4294979516, false⟩,    -- 13 micros(): 36000 after tick 7, reads 12220
    ⟨4294979, 4294979520, true⟩,     -- 14 echo poll: started
    ⟨4294979, 4294979524, true⟩,     -- 15 micros(): start
    ⟨4294979, 4294979528, true⟩,     -- 16 echo poll
    ⟨4294980, 4294980520, false⟩,    -- 17 echo poll: ended
    ⟨4294980, 4294980524, false⟩ ]   -- 18 micros(): end

/-- A ping whose timeout is computed when the microsecond counter reads `2^32 - 196`,
so that `timeout_us` wraps to 23583.  The echo line goes high 456 microseconds after
that reading and stays high for 1000 microseconds; ticks 10 to 17 are what the driver
would see if it went on polling. -/
def envNear : Nat → Sample := trace
  [ ⟨1000, 1000000, false⟩,          -- 0  constructor: trigger pin to output
    ⟨1000, 1000004, false⟩,          -- 1  constructor: trigger low
    ⟨1000, 1000008, false⟩,          -- 2  constructor: millis()
    ⟨4294967, 4294967076, false⟩,    -- 3  ping: echo read (line 86)
    ⟨4294967, 4294967080, false⟩,    -- 4  trigger high
    ⟨4294967, 4294967084, false⟩,    -- 5  delayMicroseconds(11)
    ⟨4294967, 4294967096, false⟩,    -- 6  trigger low
    ⟨4294967, 4294967100, false⟩,    -- 7  micros() for the timeout: 2^32 - 196
    ⟨4294967, 4294967104, false⟩,    -- 8  echo poll
    ⟨4294967, 4294967108, false⟩,    -- 9  micros(): 8 after tick 7
    ⟨4294967, 4294967112, false⟩,    -- 10 echo poll
    ⟨4294967, 4294967116, false⟩,    -- 11 micros()
    ⟨4294967, 4294967556, true⟩,     -- 12 echo poll: started, 456 after tick 7
    ⟨4294967, 4294967560, true⟩,     -- 13 micros(): start, reads 264
    ⟨4294967, 4294967564, true⟩,     -- 14 echo poll
    ⟨4294968, 4294968000, true⟩,     -- 15 echo poll
    ⟨4294968, 4294968556, false⟩,    -- 16 echo poll: ended
    ⟨4294968, 4294968560, false⟩ ]   -- 17 micros(): end, reads 1264

/-! ## Arithmetic of the conversions -/

theorem toLong_of_lt {x : Nat} (h : x < 2147483648) : toLong x = (x : Int) := by
  unfold toLong U32
  have : x % 4294967296 = x := Nat.mod_eq_of_lt (by omega)
  rw [this, if_pos h]

theorem toULong_natCast {n : Nat} (h : n < 4294967296) : toULong (n : Int) = n := by
  unfold toULong
  omega

theorem roundTrip_us_eq {mm v : Nat} (hmm : mm < 65536) (h1 : 1 ≤ v) (h2 : v < 65536) :
    roundTrip_us mm v = some (mm * 2000 / v) := by
  have hq : mm * 2000 / v ≤ mm * 2000 := Nat.div_le_self _ _
  have hm : mm % U16 = mm := Nat.mod_eq_of_lt hmm
  unfold roundTrip_us
  rw [hm, toLong_of_lt (by omega : v < 2147483648), toLong_of_lt (by omega : mm < 2147483648)]
  rw [if_neg (by omega)]
  have : ((mm : Int) * 2000) = ((mm * 2000 : Nat) : Int) := by push_cast; rfl
  rw [this, ← Int.ofNat_tdiv, toULong_natCast (by omega)]

/-! ## What a terminating `ping()` can do to the object -/

theorem measureEcho_cases {env : Nat → Sample} {fuel : Nat} {s s' : SimplePinger}
    {hw hw' : Hw} {b : Bool} (h : measureEcho env fuel s hw = some (b, s', hw')) :
    (b = false ∧ s' = { s with _lastError := SIMPLEPINGER_ERROR_OOR }) ∨
    (b = true ∧ ∃ w, w ≤ s._maxRange_us ∧
      s' = { s with _lastRange := rangeOfEcho w s._speedOfSound,
                    _lastError := SIMPLEPINGER_ERROR_NONE }) := by
  unfold measureEcho at h
  simp only at h
  split at h
  · exact absurd h (by simp)
  · simp only [Option.some.injEq, Prod.mk.injEq] at h
    exact Or.inl ⟨h.1.symm, h.2.1.symm⟩
  · split at h
    · exact absurd h (by simp)
    · split at h
      · simp only [Option.some.injEq, Prod.mk.injEq] at h
        exact Or.inl ⟨h.1.symm, h.2.1.symm⟩
      · rename_i hle
        simp only [Option.some.injEq, Prod.mk.injEq] at h
        exact Or.inr ⟨h.1.symm, _, Nat.le_of_not_lt hle, h.2.1.symm⟩

theorem ping_cases {env : Nat → Sample} {fuel : Nat} {s s' : SimplePinger}
    {hw hw' : Hw} {b : Bool} (h : ping env fuel s hw = some (b, s', hw')) :
    (b = true ∧ s' = { s with _lastError := SIMPLEPINGER_ERROR_SUBSTITUTE }) ∨
    (b = false ∧ s' = { s with _lastError := SIMPLEPINGER_ERROR_HARDFAIL }) ∨
    (b = false ∧ s' = { s with _lastError := SIMPLEPINGER_ERROR_UNREADY }) ∨
    (b = false ∧ s' = { s with _lastError := SIMPLEPINGER_ERROR_OOR }) ∨
    (b = true ∧ ∃ w, w ≤ s._maxRange_us ∧
      s' = { s with _lastRange := rangeOfEcho w s._speedOfSound,
                    _lastError := SIMPLEPINGER_ERROR_NONE }) := by
  unfold ping at h
  split at h
  · exact absurd h (by simp)
  · simp only [Option.some.injEq, Prod.mk.injEq] at h
    exact Or.inl ⟨h.1.symm, h.2.1.symm⟩
  · split at h
    · exact absurd h (by simp)
    · simp only [Option.some.injEq, Prod.mk.injEq] at h
      exact Or.inr (Or.inl ⟨h.1.symm, h.2.1.symm⟩)
    · simp only [Option.some.injEq, Prod.mk.injEq] at h
      exact Or.inr (Or.inr (Or.inl ⟨h.1.symm, h.2.1.symm⟩))
    · rcases measureEcho_cases h with h1 | h1
      · exact Or.inr (Or.inr (Or.inr (Or.inl h1)))
      · exact Or.inr (Or.inr (Or.inr (Or.inr h1)))

/-- A terminating `ping()` writes only `_lastRange` and `_lastError`. -/
theorem ping_frame {env : Nat → Sample} {fuel : Nat} {s s' : SimplePinger}
    {hw hw' : Hw} {b : Bool} (h : ping env fuel s hw = some (b, s', hw')) :
    s'._lastPingTime = s._lastPingTime ∧ s'._speedOfSound = s._speedOfSound ∧
    s'._triggerMode = s._triggerMode ∧ s'._waitUntilQuiet = s._waitUntilQuiet ∧
    s'._maxRange_mm = s._maxRange_mm ∧ s'._maxRange_us = s._maxRange_us ∧
    s'._minTriggerPeriod_ms = s._minTriggerPeriod_ms ∧
    s'._maxSensorDelay_us = s._maxSensorDelay_us := by
  rcases ping_cases h with h1 | h1 | h1 | h1 | ⟨_, w, _, h1⟩
  all_goals first | (rw [h1.2]; simp) | (rw [h1]; simp)

/-! ## The configuration invariant -/

theorem setMaxRange_eq {s : SimplePinger} (hs : Consistent s) (d : Nat) :
    setMaxRange s d = some { s with _maxRange_mm := d % U16,
                                    _maxRange_us := d % U16 * 2000 / s._speedOfSound } := by
  have hd : d % U16 < 65536 := Nat.mod_lt _ (by decide)
  unfold setMaxRange
  rw [roundTrip_us_eq hd hs.1 hs.2.1]

theorem setSpeedOfSound_eq {s : SimplePinger} (hs : Consistent s) {v : Nat}
    (hv : v % U16 ≠ 0) :
    setSpeedOfSound s v = some { s with _speedOfSound := v % U16,
                                        _maxRange_us := s._maxRange_mm * 2000 / (v % U16) } := by
  have hd : v % U16 < 65536 := Nat.mod_lt _ (by decide)
  unfold setSpeedOfSound
  rw [roundTrip_us_eq hs.2.2.1 (by omega) hd]

theorem setSpeedOfSound_zero (s : SimplePinger) {v : Nat} (hv : v % U16 = 0) :
    setSpeedOfSound s v = none := by
  unfold setSpeedOfSound roundTrip_us
  rw [hv]
  rfl

theorem call_consistent {env : Nat → Sample} {fuel : Nat} {c : Call}
    {p q : SimplePinger × Hw} (hp : Consistent p.1) (h : call env fuel c p = some q) :
    Consistent q.1 := by
  cases c with
  | ping =>
    unfold call at h
    simp only at h
    split at h
    · exact absurd h (by simp)
    · rename_i r hr
      obtain ⟨b, s', hw'⟩ := r
      have hf := ping_frame hr
      simp only [Option.some.injEq] at h
      subst h
      unfold Consistent at hp ⊢
      simp only
      rw [hf.2.1, hf.2.2.2.2.1, hf.2.2.2.2.2.1]
      exact hp
  | setMaxRange d =>
    unfold call at h
    simp only [setMaxRange_eq hp d, Option.some.injEq] at h
    subst h
    have hd : d % U16 < 65536 := Nat.mod_lt _ (by decide)
    exact ⟨hp.1, hp.2.1, hd, rfl⟩
  | setSpeedOfSound v =>
    unfold call at h
    by_cases hv : v % U16 = 0
    · simp [setSpeedOfSound_zero p.1 hv] at h
    · simp only [setSpeedOfSound_eq hp hv, Option.some.injEq] at h
      subst h
      have hd : v % U16 < 65536 := Nat.mod_lt _ (by decide)
      exact ⟨by simp only; omega, hd, hp.2.2.1, rfl⟩
  | setTriggerMode m =>
    unfold call at h
    simp only [Option.some.injEq] at h
    subst h
    exact hp
  | setMinTriggerPeriod ms =>
    unfold call at h
    simp only [Option.some.injEq] at h
    subst h
    exact hp
  | setWaitUntilQuiet w =>
    unfold call at h
    simp only [Option.some.injEq] at h
    subst h
    exact hp

theorem run_consistent {env : Nat → Sample} {fuel : Nat} (cs : List Call) :
    ∀ {p q : SimplePinger × Hw}, Consistent p.1 → run env fuel cs p = some q →
      Consistent q.1 := by
  induction cs with
  | nil =>
    intro p q hp h
    unfold run at h
    simp only [Option.some.injEq] at h
    subst h
    exact hp
  | cons c cs ih =>
    intro p q hp h
    unfold run at h
    split at h
    · exact absurd h (by simp)
    · rename_i r hr
      exact ih (call_consistent hp hr) h

/-- What the two-pin constructor builds. -/
theorem construct_eq (env : Nat → Sample) (uninit : Nat) (hw : Hw) :
    construct env uninit hw = some (
      { _lastRange := uninit % U16
        _lastError := SIMPLEPINGER_ERROR_INVALID
        _lastPingTime := sub32 ((env (hw.tick + 2)).millis % U32) 60
        _speedOfSound := 340
        _triggerMode := SIMPLEPINGER_TRIGGERMODE_ALWAYS
        _waitUntilQuiet := false
        _maxRange_mm := 4000
        _maxRange_us := 23529
        _minTriggerPeriod_ms := 60
        _maxSensorDelay_us := 250 },
      ((hw.step HwOp.pinModeOutput).step (HwOp.writeTrigger false)).step HwOp.readMillis) := by
  have h0 : Consistent {
      _lastRange := uninit % U16
      _lastError := SIMPLEPINGER_ERROR_INVALID
      _lastPingTime := 0
      _speedOfSound := 340
      _triggerMode := SIMPLEPINGER_TRIGGERMODE_ALWAYS
      _waitUntilQuiet := false
      _maxRange_mm := 0
      _maxRange_us := 0
      _minTriggerPeriod_ms := 0
      _maxSensorDelay_us := 0 } := by
    refine ⟨?_, ?_, ?_, ?_⟩
    · show 1 ≤ 340; omega
    · show 340 < 65536; omega
    · show 0 < 65536; omega
    · show 0 = 0 * 2000 / 340
      norm_num
  unfold construct
  simp only
  rw [setMaxRange_eq h0 4000]
  simp only [millis, Hw.step]
  have e1 : 4000 % U16 = 4000 := by decide
  have e2 : 4000 * 2000 / 340 = 23529 := by norm_num
  simp only [e1, e2]

theorem construct_consistent {env : Nat → Sample} {uninit : Nat} {hw : Hw}
    {p : SimplePinger × Hw} (h : construct env uninit hw = some p) : Consistent p.1 := by
  rw [construct_eq] at h
  simp only [Option.some.injEq] at h
  subst h
  refine ⟨?_, ?_, ?_, ?_⟩
  · show 1 ≤ 340; omega
  · show 340 < 65536; omega
  · show 4000 < 65536; omega
  · show 23529 = 4000 * 2000 / 340
    norm_num

/-- Every reachable state satisfies the configuration invariant. -/
theorem Reachable.consistent {s : SimplePinger} (h : Reachable s) : Consistent s := by
  obtain ⟨env, fuel, uninit, hw0, cs, hw, hrun⟩ := h
  unfold runFromConstructor at hrun
  split at hrun
  · exact absurd hrun (by simp)
  · rename_i p hp
    exact run_consistent cs (construct_consistent hp) hrun

/-! ## The busy-wait loops on a given trace -/

/-- The wait for the echo to start sees the line low at `k` polls, each followed by a
clock reading not beyond the timeout, then high: it reports the start. -/
theorem waitEchoStart_started (env : Nat → Sample) (timeout_us : Nat) :
    ∀ (k fuel : Nat) (hw : Hw), k < fuel →
      (∀ j, j < k → (env (hw.tick + 2 * j)).echo = false ∧
        (env (hw.tick + 2 * j + 1)).micros % U32 ≤ timeout_us) →
      (env (hw.tick + 2 * k)).echo = true →
      ∃ hw', waitEchoStart env timeout_us fuel hw = some (EchoStart.started hw') ∧
        hw'.tick = hw.tick + 2 * k + 1 := by
  intro k
  induction k with
  | zero =>
    intro fuel hw hk _ hhigh
    obtain ⟨f, rfl⟩ : ∃ f, fuel = f + 1 := ⟨fuel - 1, by omega⟩
    refine ⟨hw.step HwOp.readEcho, ?_, rfl⟩
    unfold waitEchoStart
    simp only [echoHigh]
    rw [if_pos (by simpa using hhigh)]
  | succ k ih =>
    intro fuel hw hk hlow hhigh
    obtain ⟨f, rfl⟩ : ∃ f, fuel = f + 1 := ⟨fuel - 1, by omega⟩
    have h0 := hlow 0 (by omega)
    simp only [Nat.mul_zero, Nat.add_zero] at h0
    obtain ⟨hw', hres, htick⟩ := ih f ((hw.step HwOp.readEcho).step HwOp.readMicros)
      (by omega)
      (by
        intro j hj
        have := hlow (j + 1) (by omega)
        simp only [Hw.step]
        rw [show hw.tick + 1 + 1 + 2 * j = hw.tick + 2 * (j + 1) by omega]
        exact this)
      (by
        simp only [Hw.step]
        rw [show hw.tick + 1 + 1 + 2 * k = hw.tick + 2 * (k + 1) by omega]
        exact hhigh)
    refine ⟨hw', ?_, ?_⟩
    · unfold waitEchoStart
      simp only [echoHigh, micros]
      rw [h0.1]
      simp only [Bool.false_eq_true, if_false]
      rw [if_neg (by simp only [Hw.step]; omega)]
      exact hres
    · rw [htick]
      simp only [Hw.step]
      omega

/-- The wait for the echo to start sees the line low at `k + 1` polls, the first `k`
followed by a clock reading not beyond the timeout and the last by one beyond it: it
reports the timeout. -/
theorem waitEchoStart_timedOut (env : Nat → Sample) (timeout_us : Nat) :
    ∀ (k fuel : Nat) (hw : Hw), k < fuel →
      (∀ j, j < k → (env (hw.tick + 2 * j)).echo = false ∧
        (env (hw.tick + 2 * j + 1)).micros % U32 ≤ timeout_us) →
      (env (hw.tick + 2 * k)).echo = false →
      timeout_us < (env (hw.tick + 2 * k + 1)).micros % U32 →
      ∃ hw', waitEchoStart env timeout_us fuel hw = some (EchoStart.timedOut hw') ∧
        hw'.tick = hw.tick + 2 * k + 2 := by
  intro k
  induction k with
  | zero =>
    intro fuel hw hk _ hlast hover
    obtain ⟨f, rfl⟩ : ∃ f, fuel = f + 1 := ⟨fuel - 1, by omega⟩
    refine ⟨(hw.step HwOp.readEcho).step HwOp.readMicros, ?_, rfl⟩
    simp only [Nat.mul_zero, Nat.add_zero] at hlast hover
    unfold waitEchoStart
    simp only [echoHigh, micros]
    rw [hlast]
    simp only [Bool.false_eq_true, if_false]
    rw [if_pos (by simp only [Hw.step]; omega)]
  | succ k ih =>
    intro fuel hw hk hlow hlast hover
    obtain ⟨f, rfl⟩ : ∃ f, fuel = f + 1 := ⟨fuel - 1, by omega⟩
    have h0 := hlow 0 (by omega)
    simp only [Nat.mul_zero, Nat.add_zero] at h0
    obtain ⟨hw', hres, htick⟩ := ih f ((hw.step HwOp.readEcho).step HwOp.readMicros)
      (by omega)
      (by
        intro j hj
        have := hlow (j + 1) (by omega)
        simp only [Hw.step]
        rw [show hw.tick + 1 + 1 + 2 * j = hw.tick + 2 * (j + 1) by omega]
        exact this)
      (by
        simp only [Hw.step]
        rw [show hw.tick + 1 + 1 + 2 * k = hw.tick + 2 * (k + 1) by omega]
        exact hlast)
      (by
        simp only [Hw.step]
        rw [show hw.tick + 1 + 1 + 2 * k = hw.tick + 2 * (k + 1) by omega]
        exact hover)
    refine ⟨hw', ?_, ?_⟩
    · unfold waitEchoStart
      simp only [echoHigh, micros]
      rw [h0.1]
      simp only [Bool.false_eq_true, if_false]
      rw [if_neg (by simp only [Hw.step]; omega)]
      exact hres
    · rw [htick]
      simp only [Hw.step]
      omega

/-- The wait for the echo to end sees the line high at `n` polls, then low: it exits. -/
theorem waitEchoEnd_exit (env : Nat → Sample) :
    ∀ (n fuel : Nat) (hw : Hw), n < fuel →
      (∀ i, i < n → (env (hw.tick + i)).echo = true) →
      (env (hw.tick + n)).echo = false →
      ∃ hw', waitEchoEnd env fuel hw = some hw' ∧ hw'.tick = hw.tick + n + 1 := by
  intro n
  induction n with
  | zero =>
    intro fuel hw hn _ hlow
    obtain ⟨f, rfl⟩ : ∃ f, fuel = f + 1 := ⟨fuel - 1, by omega⟩
    refine ⟨hw.step HwOp.readEcho, ?_, rfl⟩
    simp only [Nat.add_zero] at hlow
    unfold waitEchoEnd
    simp only [echoHigh]
    rw [hlow]
    simp
  | succ n ih =>
    intro fuel hw hn hhigh hlow
    obtain ⟨f, rfl⟩ : ∃ f, fuel = f + 1 := ⟨fuel - 1, by omega⟩
    have h0 := hhigh 0 (by omega)
    simp only [Nat.add_zero] at h0
    obtain ⟨hw', hres, htick⟩ := ih f (hw.step HwOp.readEcho) (by omega)
      (by
        intro i hi
        have := hhigh (i + 1) (by omega)
        simp only [Hw.step]
        rw [show hw.tick + 1 + i = hw.tick + (i + 1) by omega]
        exact this)
      (by
        simp only [Hw.step]
        rw [show hw.tick + 1 + n = hw.tick + (n + 1) by omega]
        exact hlow)
    refine ⟨hw', ?_, ?_⟩
    · unfold waitEchoEnd
      simp only [echoHigh]
      rw [h0]
      simp only [if_true]
      exact hres
    · rw [htick]
      simp only [Hw.step]
      omega

/-- On a trace with an echo pulse, the part of `ping()` after the trigger pulse
terminates, and its result is decided by the measured width. -/
theorem measureEcho_of_pulse {env : Nat → Sample} {fuel : Nat} {s : SimplePinger}
    {hw : Hw} {k n : Nat} (hk : k < fuel) (hn : n < fuel)
    (hp : EchoPulse env s hw.tick k n) :
    ∃ hw', measureEcho env fuel s hw =
      if echoWidth env hw.tick k n > s._maxRange_us then
        some (false, { s with _lastError := SIMPLEPINGER_ERROR_OOR }, hw')
      else
        some (true, { s with
          _lastRange := rangeOfEcho (echoWidth env hw.tick k n) s._speedOfSound,
          _lastError := SIMPLEPINGER_ERROR_NONE }, hw') := by
  obtain ⟨hlow, hstart, hhigh, hend⟩ := hp
  obtain ⟨hw2, h2, t2⟩ := waitEchoStart_started env
    (add32 (echoStartWindow s) ((env hw.tick).micros % U32)) k fuel
    (hw.step HwOp.readMicros) hk
    (by
      intro j hj
      have := hlow j hj
      simp only [Hw.step]
      rw [show hw.tick + 1 + 2 * j + 1 = hw.tick + 2 + 2 * j by omega]
      exact this)
    (by simpa only [Hw.step] using hstart)
  simp only [Hw.step] at t2
  obtain ⟨hw4, h4, t4⟩ := waitEchoEnd_exit env n fuel (hw2.step HwOp.readMicros) hn
    (by
      intro i hi
      have := hhigh i hi
      simp only [Hw.step]
      rw [t2, show hw.tick + 1 + 2 * k + 1 + 1 + i = hw.tick + 3 + 2 * k + i by omega]
      exact this)
    (by
      simp only [Hw.step]
      rw [t2, show hw.tick + 1 + 2 * k + 1 + 1 + n = hw.tick + 3 + 2 * k + n by omega]
      exact hend)
  simp only [Hw.step] at t4
  refine ⟨hw4.step HwOp.readMicros, ?_⟩
  unfold measureEcho
  simp only [micros]
  rw [h2]
  simp only
  rw [h4]
  simp only
  unfold echoWidth
  rw [t4, t2, show hw.tick + 1 + 2 * k + 1 + 1 + n + 1 = hw.tick + 4 + 2 * k + n by omega,
    show hw.tick + 1 + 2 * k + 1 = hw.tick + 2 + 2 * k by omega]

/-- In a consistent configuration an echo no wider than `_maxRange_us` gives a range
that is computed without wrap-around and stored without truncation. -/
theorem rangeOfEcho_exact {s : SimplePinger} (hs : Consistent s) {w : Nat}
    (hw : w ≤ s._maxRange_us) :
    w * s._speedOfSound ≤ s._maxRange_mm * 2000 ∧
    rangeOfEcho w s._speedOfSound = w * s._speedOfSound / 2000 ∧
    rangeOfEcho w s._speedOfSound ≤ s._maxRange_mm := by
  obtain ⟨h1, h2, h3, h4⟩ := hs
  have hprod : w * s._speedOfSound ≤ s._maxRange_mm * 2000 := by
    rw [h4] at hw
    exact (Nat.le_div_iff_mul_le (by omega)).mp hw
  have hq : w * s._speedOfSound / 2000 ≤ s._maxRange_mm :=
    Nat.div_le_of_le_mul (by omega)
  have he : rangeOfEcho w s._speedOfSound = w * s._speedOfSound / 2000 := by
    unfold rangeOfEcho mul32
    rw [toLong_of_lt (by omega), toULong_natCast (by omega)]
    unfold U32 U16
    rw [Nat.mod_eq_of_lt (by omega : w * s._speedOfSound < 4294967296)]
    exact Nat.mod_eq_of_lt (by omega)
  exact ⟨hprod, he, he ▸ hq⟩

/-- A 32-bit difference of two clock readings recovers a true elapsed time below
`2^32`. -/
theorem sub32_elapsed (a w : Nat) (hw : w < 4294967296) :
    sub32 ((a + w) % U32) (a % U32) = w := by
  unfold sub32 U32
  omega

/-- The blocking wait of line 67 only reads `millis()`. -/
theorem waitMinPeriod_log (env : Nat → Sample) (s : SimplePinger) :
    ∀ (fuel : Nat) (hw hw1 : Hw), waitMinPeriod env s fuel hw = some hw1 →
      ∃ m, hw1 = { tick := hw.tick + m, log := hw.log ++ List.replicate m HwOp.readMillis } := by
  intro fuel
  induction fuel with
  | zero =>
    intro hw hw1 h
    unfold waitMinPeriod at h
    exact absurd h (by simp)
  | succ f ih =>
    intro hw hw1 h
    unfold waitMinPeriod at h
    simp only [millis] at h
    split at h
    · obtain ⟨m, hm⟩ := ih _ _ h
      refine ⟨m + 1, ?_⟩
      rw [hm]
      simp only [Hw.step, List.replicate_succ, List.append_assoc, List.singleton_append,
        Hw.mk.injEq, and_true]
      omega
    · simp only [Option.some.injEq] at h
      refine ⟨1, ?_⟩
      rw [← h]
      rfl

/-- The retrigger-interval policy only reads `millis()`. -/
theorem retriggerPolicy_log {env : Nat → Sample} {fuel : Nat} {s : SimplePinger}
    {hw hw1 : Hw} (h : retriggerPolicy env fuel s hw = some (Retrigger.proceed hw1)) :
    ∃ m, hw1 = { tick := hw.tick + m, log := hw.log ++ List.replicate m HwOp.readMillis } := by
  unfold retriggerPolicy at h
  split at h
  · split at h
    · exact absurd h (by simp)
    · rename_i hw2 hwait
      simp only [Option.some.injEq, Retrigger.proceed.injEq] at h
      subst h
      exact waitMinPeriod_log env s fuel hw _ hwait
  · split at h
    · simp only [millis] at h
      split at h
      · exact absurd h (by simp)
      · simp only [Option.some.injEq, Retrigger.proceed.injEq] at h
        exact ⟨1, h ▸ rfl⟩
    · simp only [Option.some.injEq, Retrigger.proceed.injEq] at h
      exact ⟨0, by subst h; simp⟩

/-- Outside the two period-checking modes the retrigger-interval policy lets every
call through without touching the hardware. -/
theorem retriggerPolicy_always (env : Nat → Sample) (fuel : Nat) {s : SimplePinger}
    (hw : Hw) (h1 : s._triggerMode ≠ SIMPLEPINGER_TRIGGERMODE_NONBLOCKING)
    (h2 : s._triggerMode ≠ SIMPLEPINGER_TRIGGERMODE_BLOCKING) :
    retriggerPolicy env fuel s hw = some (Retrigger.proceed hw) := by
  unfold retriggerPolicy
  rw [if_neg h2, if_neg h1]

/-- When `timeout_us` is `2^32 - 1` the echo-start wait can never report a timeout,
however often it polls: no 32-bit clock reading is greater. -/
theorem waitEchoStart_no_timeout_at_max (env : Nat → Sample) :
    ∀ (fuel : Nat) (hw : Hw) (r : EchoStart),
      waitEchoStart env 4294967295 fuel hw = some r → ∃ hw', r = EchoStart.started hw' := by
  intro fuel
  induction fuel with
  | zero =>
    intro hw r h
    unfold waitEchoStart at h
    exact absurd h (by simp)
  | succ f ih =>
    intro hw r h
    unfold waitEchoStart at h
    simp only [echoHigh, micros] at h
    split at h
    · simp only [Option.some.injEq] at h
      exact ⟨_, h.symm⟩
    · rw [if_neg (by unfold U32; omega)] at h
      exact ih _ _ h

/-- Where the echo-start timeout does work: if the pulse is emitted from `hw`, the
echo line is low at `k + 1` polls, and the clock reading after the last of them is
the first one greater than `timeout_us`, then the rest of `ping()` returns false with
`SIMPLEPINGER_ERROR_OOR` and leaves `_lastRange` alone. -/
theorem measureEcho_timedOut {env : Nat → Sample} {fuel : Nat} {s : SimplePinger}
    {hw : Hw} {k : Nat} (hk : k < fuel)
    (hlow : ∀ j, j < k → (env (hw.tick + 1 + 2 * j)).echo = false ∧
      (env (hw.tick + 2 + 2 * j)).micros % U32 ≤
        add32 (echoStartWindow s) ((env hw.tick).micros % U32))
    (hlast : (env (hw.tick + 1 + 2 * k)).echo = false)
    (hover : add32 (echoStartWindow s) ((env hw.tick).micros % U32) <
      (env (hw.tick + 2 + 2 * k)).micros % U32) :
    ∃ hw', measureEcho env fuel s hw =
      some (false, { s with _lastError := SIMPLEPINGER_ERROR_OOR }, hw') := by
  obtain ⟨hw2, h2, _⟩ := waitEchoStart_timedOut env
    (add32 (echoStartWindow s) ((env hw.tick).micros % U32)) k fuel
    (hw.step HwOp.readMicros) hk
    (by
      intro j hj
      have := hlow j hj
      simp only [Hw.step]
      rw [show hw.tick + 1 + 2 * j + 1 = hw.tick + 2 + 2 * j by omega]
      exact this)
    (by simpa only [Hw.step] using hlast)
    (by
      simp only [Hw.step]
      rw [show hw.tick + 1 + 2 * k + 1 = hw.tick + 2 + 2 * k by omega]
      exact hover)
  refine ⟨hw2, ?_⟩
  unfold measureEcho
  simp only [micros]
  rw [h2]

/-- Lines 68-73: in non-blocking mode a call inside the minimum period returns at
once. -/
theorem ping_nonblocking_soon (env : Nat → Sample) (fuel : Nat) (s : SimplePinger)
    (hw : Hw)
    (hmode : s._triggerMode = SIMPLEPINGER_TRIGGERMODE_NONBLOCKING)
    (hsoon : sub32 ((env hw.tick).millis % U32) s._lastPingTime < s._minTriggerPeriod_ms) :
    ping env fuel s hw =
      some (true, { s with _lastError := SIMPLEPINGER_ERROR_SUBSTITUTE },
        hw.step HwOp.readMillis) := by
  have hpol : retriggerPolicy env fuel s hw =
      some (Retrigger.substitute (hw.step HwOp.readMillis)) := by
    unfold retriggerPolicy
    rw [if_neg (by rw [hmode]; decide), if_pos hmode]
    simp only [millis]
    rw [if_pos hsoon]
  unfold ping
  rw [hpol]

/-- One call changes the configured maximum range and speed of sound as the history
functions say. -/
theorem call_config {env : Nat → Sample} {fuel : Nat} {c : Call}
    {p q : SimplePinger × Hw} (hp : Consistent p.1)
    (hc : ArgInRange c)
    (h : call env fuel c p = some q) :
    q.1._maxRange_mm = lastMaxRangeFrom p.1._maxRange_mm [c] ∧
    q.1._speedOfSound = lastSpeedOfSoundFrom p.1._speedOfSound [c] := by
  cases c with
  | ping =>
    unfold call at h
    simp only at h
    split at h
    · exact absurd h (by simp)
    · rename_i r hr
      obtain ⟨b, s', hw'⟩ := r
      have hf := ping_frame hr
      simp only [Option.some.injEq] at h
      subst h
      exact ⟨hf.2.2.2.2.1, hf.2.1⟩
  | setMaxRange d =>
    unfold ArgInRange at hc
    unfold call at h
    simp only [setMaxRange_eq hp d, Option.some.injEq] at h
    subst h
    exact ⟨Nat.mod_eq_of_lt hc, rfl⟩
  | setSpeedOfSound v =>
    unfold ArgInRange at hc
    have hv : v % U16 = v := Nat.mod_eq_of_lt hc.2
    unfold call at h
    simp only [setSpeedOfSound_eq hp (by omega : v % U16 ≠ 0), Option.some.injEq] at h
    subst h
    exact ⟨rfl, hv⟩
  | setTriggerMode m =>
    unfold call at h
    simp only [Option.some.injEq] at h
    subst h
    exact ⟨rfl, rfl⟩
  | setMinTriggerPeriod ms =>
    unfold call at h
    simp only [Option.some.injEq] at h
    subst h
    exact ⟨rfl, rfl⟩
  | setWaitUntilQuiet w =>
    unfold call at h
    simp only [Option.some.injEq] at h
    subst h
    exact ⟨rfl, rfl⟩

/-- A history changes the configured maximum range and speed of sound as the history
functions say. -/
theorem run_config {env : Nat → Sample} {fuel : Nat} (cs : List Call) :
    ∀ {p q : SimplePinger × Hw}, Consistent p.1 → ArgsInRange cs →
      run env fuel cs p = some q →
      q.1._maxRange_mm = lastMaxRangeFrom p.1._maxRange_mm cs ∧
      q.1._speedOfSound = lastSpeedOfSoundFrom p.1._speedOfSound cs := by
  induction cs with
  | nil =>
    intro p q _ _ h
    unfold run at h
    simp only [Option.some.injEq] at h
    subst h
    exact ⟨rfl, rfl⟩
  | cons c cs ih =>
    intro p q hp hargs h
    unfold run at h
    split at h
    · exact absurd h (by simp)
    · rename_i r hr
      have h1 := call_config hp (hargs c (List.mem_cons_self _ _)) hr
      have h2 := ih (call_consistent hp hr)
        (fun c' hc' => hargs c' (List.mem_cons_of_mem _ hc')) h
      rw [h2.1, h2.2, h1.1, h1.2]
      exact ⟨rfl, rfl⟩

/-! ## More fuel never changes a result -/

theorem waitMinPeriod_fuel_succ (env : Nat → Sample) (s : SimplePinger) :
    ∀ (f : Nat) (hw r : Hw), waitMinPeriod env s f hw = some r →
      waitMinPeriod env s (f + 1) hw = some r := by
  intro f
  induction f with
  | zero =>
    intro hw r h
    simp [waitMinPeriod] at h
  | succ g ih =>
    intro hw r h
    rw [waitMinPeriod] at h ⊢
    simp only [millis] at h ⊢
    split
    · rename_i hlt
      rw [if_pos hlt] at h
      exact ih _ _ h
    · rename_i hge
      rw [if_neg hge] at h
      exact h

theorem waitQuiet_fuel_succ (env : Nat → Sample) (startWait : Nat) :
    ∀ (f : Nat) (hw : Hw) (r : Readiness), waitQuiet env startWait f hw = some r →
      waitQuiet env startWait (f + 1) hw = some r := by
  intro f
  induction f with
  | zero =>
    intro hw r h
    simp [waitQuiet] at h
  | succ g ih =>
    intro hw r h
    rw [waitQuiet] at h ⊢
    simp only [echoHigh, micros] at h ⊢
    split
    · rename_i hhigh
      rw [if_pos hhigh] at h
      split
      · rename_i hgt
        rw [if_pos hgt] at h
        exact h
      · rename_i hle
        rw [if_neg hle] at h
        exact ih _ _ h
    · rename_i hlow
      rw [if_neg hlow] at h
      exact h

theorem waitEchoStart_fuel_succ (env : Nat → Sample) (timeout_us : Nat) :
    ∀ (f : Nat) (hw : Hw) (r : EchoStart), waitEchoStart env timeout_us f hw = some r →
      waitEchoStart env timeout_us (f + 1) hw = some r := by
  intro f
  induction f with
  | zero =>
    intro hw r h
    simp [waitEchoStart] at h
  | succ g ih =>
    intro hw r h
    rw [waitEchoStart] at h ⊢
    simp only [echoHigh, micros] at h ⊢
    split
    · rename_i hhigh
      rw [if_pos hhigh] at h
      exact h
    · rename_i hlow
      rw [if_neg hlow] at h
      split
      · rename_i hgt
        rw [if_pos hgt] at h
        exact h
      · rename_i hle
        rw [if_neg hle] at h
        exact ih _ _ h

theorem waitEchoEnd_fuel_succ (env : Nat → Sample) :
    ∀ (f : Nat) (hw r : Hw), waitEchoEnd env f hw = some r →
      waitEchoEnd env (f + 1) hw = some r := by
  intro f
  induction f with
  | zero =>
    intro hw r h
    simp [waitEchoEnd] at h
  | succ g ih =>
    intro hw r h
    rw [waitEchoEnd] at h ⊢
    simp only [echoHigh] at h ⊢
    split
    · rename_i hhigh
      rw [if_pos hhigh] at h
      exact ih _ _ h
    · rename_i hlow
      rw [if_neg hlow] at h
      exact h

theorem measureEcho_fuel_succ {env : Nat → Sample} {f : Nat} {s : SimplePinger} {hw : Hw}
    {r : Bool × SimplePinger × Hw} (h : measureEcho env f s hw = some r) :
    measureEcho env (f + 1) s hw = some r := by
  unfold measureEcho at h ⊢
  simp only at h ⊢
  split at h
  · exact absurd h (by simp)
  · rename_i hw2 h2
    rw [waitEchoStart_fuel_succ _ _ _ _ _ h2]
    exact h
  · rename_i hw2 h2
    rw [waitEchoStart_fuel_succ _ _ _ _ _ h2]
    simp only
    split at h
    · exact absurd h (by simp)
    · rename_i hw4 h4
      rw [waitEchoEnd_fuel_succ _ _ _ _ h4]
      exact h

theorem ping_fuel_succ {env : Nat → Sample} {f : Nat} {s : SimplePinger} {hw : Hw}
    {r : Bool × SimplePinger × Hw} (h : ping env f s hw = some r) :
    ping env (f + 1) s hw = some r := by
  have hret : ∀ x, retriggerPolicy env f s hw = some x →
      retriggerPolicy env (f + 1) s hw = some x := by
    intro x hx
    unfold retriggerPolicy at hx ⊢
    split
    · rename_i hmode
      rw [if_pos hmode] at hx
      split at hx
      · exact absurd hx (by simp)
      · rename_i hw1 h1
        rw [waitMinPeriod_fuel_succ _ _ _ _ _ h1]
        exact hx
    · rename_i hmode
      rw [if_neg hmode] at hx
      exact hx
  have hrdy : ∀ hw1 x, readinessPolicy env f s hw1 = some x →
      readinessPolicy env (f + 1) s hw1 = some x := by
    intro hw1 x hx
    unfold readinessPolicy at hx ⊢
    split
    · rename_i hq
      rw [if_pos hq] at hx
      exact waitQuiet_fuel_succ _ _ _ _ _ hx
    · rename_i hq
      rw [if_neg hq] at hx
      exact hx
  unfold ping at h ⊢
  split at h
  · exact absurd h (by simp)
  · rename_i hw1 h1
    rw [hret _ h1]
    exact h
  · rename_i hw1 h1
    rw [hret _ h1]
    simp only
    split at h
    · exact absurd h (by simp)
    · rename_i hw2 h2
      rw [hrdy _ _ h2]
      exact h
    · rename_i hw2 h2
      rw [hrdy _ _ h2]
      exact h
    · rename_i hw2 h2
      rw [hrdy _ _ h2]
      exact measureEcho_fuel_succ h

/-- A `ping()` that terminates within `f` loop iterations gives the same result with
any larger bound. -/
theorem ping_fuel_mono {env : Nat → Sample} {f g : Nat} {s : SimplePinger} {hw : Hw}
    {r : Bool × SimplePinger × Hw} (hfg : f ≤ g) (h : ping env f s hw = some r) :
    ping env g s hw = some r := by
  induction hfg with
  | refl => exact h
  | step _ ih => exact ping_fuel_succ ih

/-- A history that terminates within `f` loop iterations per ping gives the same
result with any larger bound. -/
theorem run_fuel_mono {env : Nat → Sample} {f g : Nat} (hfg : f ≤ g) (cs : List Call) :
    ∀ {p q : SimplePinger × Hw}, run env f cs p = some q → run env g cs p = some q := by
  induction cs with
  | nil =>
    intro p q h
    exact h
  | cons c cs ih =>
    intro p q h
    unfold run at h ⊢
    split at h
    · exact absurd h (by simp)
    · rename_i r hr
      have hc : call env g c p = some r := by
        cases c with
        | ping =>
          unfold call at hr ⊢
          simp only at hr ⊢
          split at hr
          · exact absurd hr (by simp)
          · rename_i x hx
            rw [ping_fuel_mono hfg hx]
            exact hr
        | setMaxRange d => exact hr
        | setSpeedOfSound v => exact hr
        | setTriggerMode m => exact hr
        | setMinTriggerPeriod ms => exact hr
        | setWaitUntilQuiet w => exact hr
      rw [hc]
      exact ih h

/-! ## The claims -/

/-- What the code does for an echo it accepts.  For every reachable sensor state and
every run of `ping()` that emits its pulse, in which the test of line 101 does not
fire before the echo line is seen high (`EchoPulse`, the driver's own 32-bit
comparison, not the elapsed time) and the clock read when the line drops is `W`
microseconds after the clock read at the start, with `W ≤ _maxRange_us`: `ping()`
returns true, `_lastError` becomes `SIMPLEPINGER_ERROR_NONE` and `_lastRange` becomes
the quotient `(W * _speedOfSound) / 2000`. -/
theorem ping_success_of_accepted_echo (env : Nat → Sample) (fuel : Nat) (s : SimplePinger)
    (hw hw1 hw2 : Hw) (k n W : Nat)
    (hs : Reachable s)
    (hret : retriggerPolicy env fuel s hw = some (Retrigger.proceed hw1))
    (hrdy : readinessPolicy env fuel s hw1 = some (Readiness.quiet hw2))
    (hk : k < fuel) (hn : n < fuel)
    (hp : EchoPulse env s (hw2.tick + 3) k n)
    (hW : (env (hw2.tick + 3 + 4 + 2 * k + n)).micros =
      (env (hw2.tick + 3 + 2 + 2 * k)).micros + W)
    (hle : W ≤ s._maxRange_us) :
    ∃ hw', ping env fuel s hw =
      some (true, { s with _lastRange := W * s._speedOfSound / 2000,
                           _lastError := SIMPLEPINGER_ERROR_NONE }, hw') := by
  have hc := hs.consistent
  have hWlt : W < 4294967296 := by
    have h4 := hc.2.2.2
    have : s._maxRange_mm * 2000 / s._speedOfSound ≤ s._maxRange_mm * 2000 :=
      Nat.div_le_self _ _
    have := hc.2.2.1
    omega
  have ht : (emitPulse hw2).tick = hw2.tick + 3 := rfl
  obtain ⟨hw', hm⟩ :=
    @measureEcho_of_pulse env fuel s (emitPulse hw2) k n hk hn (by rw [ht]; exact hp)
  have hwid : echoWidth env (emitPulse hw2).tick k n = W := by
    unfold echoWidth
    rw [ht, hW]
    exact sub32_elapsed _ _ hWlt
  rw [hwid, if_neg (by omega), (rangeOfEcho_exact hc hle).2.1] at hm
  refine ⟨hw', ?_⟩
  unfold ping
  rw [hret]
  simp only
  rw [hrdy]
  exact hm

/-- The previous lemma at the trace `envGood`: an echo of 1000 microseconds at 340 m/s
is stored as 170 mm. -/
theorem ping_success_of_accepted_echo_envGood :
    Reachable sBuilt ∧
    retriggerPolicy envGood 5 sBuilt hwBuilt = some (Retrigger.proceed hwBuilt) ∧
    readinessPolicy envGood 5 sBuilt hwBuilt =
      some (Readiness.quiet (hwBuilt.step HwOp.readEcho)) ∧
    EchoPulse envGood sBuilt 7 2 2 ∧
    ∃ hw', ping envGood 5 sBuilt hwBuilt =
      some (true, { sBuilt with _lastRange := 170,
                                _lastError := SIMPLEPINGER_ERROR_NONE }, hw') :=
  ⟨⟨envGood, 5, 7, hwBoot, [], hwBuilt, by decide⟩, by decide, by decide,
    by unfold EchoPulse; decide,
    ping_success_of_accepted_echo envGood 5 sBuilt hwBuilt hwBuilt (hwBuilt.step HwOp.readEcho) 2 2 1000
      ⟨envGood, 5, 7, hwBoot, [], hwBuilt, by decide⟩ (by decide) (by decide)
      (by decide) (by decide) (by unfold EchoPulse; decide) (by decide) (by decide)⟩

/-- C1 fails on the code when the microsecond counter is about to wrap.  On the trace
`envNear` the object is the one the constructor builds (window 23779 microseconds,
`_maxRange_us = 23529`), the pulse is emitted, the echo line goes high 456
microseconds after the timeout is computed, well inside the window, and the pulse is
1000 microseconds wide; no echo trace the driver would accept exists (`EchoPulse`
fails for every `k` and `n`), and `ping()` returns false with
`SIMPLEPINGER_ERROR_OOR` at the first poll, `_lastRange` still 7 instead of 170:
line 98 computes `timeout_us = 23583` (wrapped) and line 101 finds the reading
`2^32 - 188` greater. -/
theorem C1_early_timeout_on_wraparound :
    construct envNear 7 hwBoot = some (sBuilt, hwBuilt) ∧
    echoStartWindow sBuilt = 23779 ∧
    sBuilt._maxRange_us = 23529 ∧
    (envNear 7).micros = 4294967100 ∧
    add32 (echoStartWindow sBuilt) ((envNear 7).micros % U32) = 23583 ∧
    (envNear 12).echo = true ∧
    (envNear 12).micros = (envNear 7).micros + 456 ∧
    (envNear 17).micros = (envNear 13).micros + 1000 ∧
    (∀ k n, ¬ EchoPulse envNear sBuilt 7 k n) ∧
    ping envNear 5 sBuilt hwBuilt =
      some (false, { sBuilt with _lastError := SIMPLEPINGER_ERROR_OOR },
        { tick := 10,
          log := hwBuilt.log ++
            [HwOp.readEcho, HwOp.writeTrigger true, HwOp.delayMicroseconds 11,
             HwOp.writeTrigger false, HwOp.readMicros,
             HwOp.readEcho, HwOp.readMicros] }) ∧
    ({ sBuilt with _lastError := SIMPLEPINGER_ERROR_OOR } : SimplePinger)._lastRange = 7 := by
  refine ⟨by decide, by decide, by decide, by decide, by decide, by decide, by decide,
    by decide, ?_, by decide, by decide⟩
  intro k n hp
  obtain ⟨hlow, hstart, _, _⟩ := hp
  have h12 : ∀ t, (envNear t).echo = true → 12 ≤ t := by
    intro t ht
    by_contra hlt
    have hcases : t = 0 ∨ t = 1 ∨ t = 2 ∨ t = 3 ∨ t = 4 ∨ t = 5 ∨ t = 6 ∨ t = 7 ∨ t = 8 ∨
        t = 9 ∨ t = 10 ∨ t = 11 := by omega
    rcases hcases with h | h | h | h | h | h | h | h | h | h | h | h <;> subst h <;>
      exact absurd ht (by decide)
  have hk : 1 ≤ k := by
    have := h12 _ hstart
    omega
  have h0 := (hlow 0 hk).2
  exact absurd h0 (by decide)

/-- C6. For every sensor state and every run of `ping()` that emits its pulse and
detects an echo (the line becomes active before the echo-start wait times out), if
the measured width exceeds `_maxRange_us` then `ping()` returns false with
`_lastError = SIMPLEPINGER_ERROR_OOR`, and nothing else of the object, `_lastRange`
included, changes. -/
theorem C6_echo_too_wide (env : Nat → Sample) (fuel : Nat) (s : SimplePinger)
    (hw hw1 hw2 : Hw) (k n : Nat)
    (hret : retriggerPolicy env fuel s hw = some (Retrigger.proceed hw1))
    (hrdy : readinessPolicy env fuel s hw1 = some (Readiness.quiet hw2))
    (hk : k < fuel) (hn : n < fuel)
    (hp : EchoPulse env s (hw2.tick + 3) k n)
    (hwide : echoWidth env (hw2.tick + 3) k n > s._maxRange_us) :
    ∃ s' hw', ping env fuel s hw = some (false, s', hw') ∧
      s' = { s with _lastError := SIMPLEPINGER_ERROR_OOR } ∧
      getLastError s' = SIMPLEPINGER_ERROR_OOR ∧ getRange s' = getRange s := by
  have ht : (emitPulse hw2).tick = hw2.tick + 3 := rfl
  obtain ⟨hw', hm⟩ :=
    @measureEcho_of_pulse env fuel s (emitPulse hw2) k n hk hn (by rw [ht]; exact hp)
  rw [ht, if_pos hwide] at hm
  refine ⟨_, hw', ?_, rfl, rfl, rfl⟩
  unfold ping
  rw [hret]
  simp only
  rw [hrdy]
  exact hm

/-- C6 at the trace `envLong`: an echo of 30000 microseconds against a maximum of
23529. -/
theorem C6_echo_too_wide_witness :
    EchoPulse envLong sBuilt 7 2 2 ∧ echoWidth envLong 7 2 2 = 30000 ∧
    sBuilt._maxRange_us = 23529 ∧
    ∃ s' hw', ping envLong 5 sBuilt hwBuilt = some (false, s', hw') ∧
      s' = { sBuilt with _lastError := SIMPLEPINGER_ERROR_OOR } ∧
      getLastError s' = SIMPLEPINGER_ERROR_OOR ∧ getRange s' = getRange sBuilt :=
  ⟨by unfold EchoPulse; decide, by decide, by decide,
    C6_echo_too_wide envLong 5 sBuilt hwBuilt hwBuilt (hwBuilt.step HwOp.readEcho) 2 2
      (by decide) (by decide) (by decide) (by decide) (by unfold EchoPulse; decide)
      (by decide)⟩

/-- C3. For every sensor state in non-blocking trigger mode, if the millisecond
clock read at the call, minus `_lastPingTime`, is less than `_minTriggerPeriod_ms`,
then `ping()` returns true, `_lastError` becomes `SIMPLEPINGER_ERROR_SUBSTITUTE`,
nothing else of the object changes (`_lastRange` and `_lastPingTime` included), and the
only hardware access is that one read of `millis()`: the trigger output is not
written and the echo input is not read. -/
theorem C3_nonblocking_substitute (env : Nat → Sample) (fuel : Nat) (s : SimplePinger)
    (hw : Hw)
    (hmode : s._triggerMode = SIMPLEPINGER_TRIGGERMODE_NONBLOCKING)
    (hsoon : sub32 ((env hw.tick).millis % U32) s._lastPingTime < s._minTriggerPeriod_ms) :
    ping env fuel s hw =
      some (true, { s with _lastError := SIMPLEPINGER_ERROR_SUBSTITUTE },
        { tick := hw.tick + 1, log := hw.log ++ [HwOp.readMillis] }) :=
  ping_nonblocking_soon env fuel s hw hmode hsoon

/-- C3 at the trace `envBusy`: 560 ms after `_lastPingTime` with a period of 1000 ms. -/
theorem C3_nonblocking_substitute_witness :
    sNonBlocking._triggerMode = SIMPLEPINGER_TRIGGERMODE_NONBLOCKING ∧
    sub32 ((envBusy hwBuilt.tick).millis % U32) sNonBlocking._lastPingTime = 560 ∧
    sNonBlocking._minTriggerPeriod_ms = 1000 ∧
    ping envBusy 0 sNonBlocking hwBuilt =
      some (true, { sNonBlocking with _lastError := SIMPLEPINGER_ERROR_SUBSTITUTE },
        { tick := hwBuilt.tick + 1, log := hwBuilt.log ++ [HwOp.readMillis] }) :=
  ⟨by decide, by decide, by decide,
    C3_nonblocking_substitute envBusy 0 sNonBlocking hwBuilt (by decide) (by decide)⟩

/-- C7, as stated, fails in non-blocking mode: the reachable object `sNonBlocking`
has `_waitUntilQuiet = false`, the echo line is high when `ping()` is called, and
`ping()` returns true with `SIMPLEPINGER_ERROR_SUBSTITUTE` (not false with
`SIMPLEPINGER_ERROR_UNREADY`), because the retrigger-interval check of lines 68-73
comes first. -/
theorem C7_counterexample :
    Reachable sNonBlocking ∧ sNonBlocking._waitUntilQuiet = false ∧
    (envBusy hwBuilt.tick).echo = true ∧
    ping envBusy 5 sNonBlocking hwBuilt =
      some (true, { sNonBlocking with _lastError := SIMPLEPINGER_ERROR_SUBSTITUTE },
        hwBuilt.step HwOp.readMillis) :=
  ⟨⟨envBusy, 5, 7, hwBoot, [Call.setTriggerMode 1, Call.setMinTriggerPeriod 1000], hwBuilt,
      by decide⟩, by decide, by decide, by decide⟩

/-- C7, amended. For every sensor state with `_waitUntilQuiet = false`, whenever the
retrigger-interval policy lets the call proceed (always in mode Always; in the
non-blocking and blocking modes once the minimum period has elapsed) and the echo
line is high when line 86 reads it: `ping()` returns false with
`SIMPLEPINGER_ERROR_UNREADY`, nothing else of the object changes (`_lastPingTime`
included), and the hardware accesses of the call are reads of `millis()` followed by
one read of the echo input: the trigger output is never written.  Outside the
non-blocking and blocking modes the echo read is the first access of the call. -/
theorem C7_unready_after_retrigger_policy (env : Nat → Sample) (fuel : Nat)
    (s : SimplePinger) (hw hw1 : Hw)
    (hq : s._waitUntilQuiet = false)
    (hret : retriggerPolicy env fuel s hw = some (Retrigger.proceed hw1))
    (hecho : (env hw1.tick).echo = true) :
    ping env fuel s hw =
      some (false, { s with _lastError := SIMPLEPINGER_ERROR_UNREADY },
        hw1.step HwOp.readEcho) ∧
    (∃ m, (hw1.step HwOp.readEcho).log =
      hw.log ++ List.replicate m HwOp.readMillis ++ [HwOp.readEcho]) ∧
    (s._triggerMode ≠ SIMPLEPINGER_TRIGGERMODE_NONBLOCKING →
      s._triggerMode ≠ SIMPLEPINGER_TRIGGERMODE_BLOCKING → hw1 = hw) := by
  refine ⟨?_, ?_, ?_⟩
  · have hrdy : readinessPolicy env fuel s hw1 =
        some (Readiness.unready (hw1.step HwOp.readEcho)) := by
      unfold readinessPolicy
      rw [hq]
      simp only [echoHigh, Bool.false_eq_true, if_false]
      rw [hecho]
      simp
    unfold ping
    rw [hret]
    simp only
    rw [hrdy]
  · obtain ⟨m, hm⟩ := retriggerPolicy_log hret
    exact ⟨m, by rw [hm]; rfl⟩
  · intro h1 h2
    have := retriggerPolicy_always env fuel hw h1 h2
    rw [this] at hret
    simp only [Option.some.injEq, Retrigger.proceed.injEq] at hret
    exact hret.symm

/-- C7 amended, at the trace `envBusy` in mode Always. -/
theorem C7_unready_after_retrigger_policy_witness :
    sBuilt._waitUntilQuiet = false ∧
    retriggerPolicy envBusy 5 sBuilt hwBuilt = some (Retrigger.proceed hwBuilt) ∧
    (envBusy hwBuilt.tick).echo = true ∧
    ping envBusy 5 sBuilt hwBuilt =
      some (false, { sBuilt with _lastError := SIMPLEPINGER_ERROR_UNREADY },
        hwBuilt.step HwOp.readEcho) :=
  ⟨by decide, by decide, by decide,
    (C7_unready_after_retrigger_policy envBusy 5 sBuilt hwBuilt hwBuilt (by decide)
      (by decide) (by decide)).1⟩

/-- C2 fails on the code: `ping()` never writes `_lastPingTime`.  On the trace
`envGood` the object built at 1000 ms (so `_lastPingTime = 940`) pings at 2000 ms: the
trigger pin is driven high, the ping succeeds with a range of 170 mm, and
`_lastPingTime` is still 940, not 2000. -/
theorem C2_lastPingTime_not_updated :
    construct envGood 7 hwBoot = some (sBuilt, hwBuilt) ∧
    (envGood 4).millis % U32 = 2000 ∧
    ping envGood 5 sBuilt hwBuilt =
      some (true,
        { sBuilt with _lastRange := 170, _lastError := SIMPLEPINGER_ERROR_NONE },
        hwPinged) ∧
    HwOp.writeTrigger true ∈ hwPinged.log ∧
    ({ sBuilt with _lastRange := 170,
                   _lastError := SIMPLEPINGER_ERROR_NONE } : SimplePinger)._lastPingTime = 940 :=
  ⟨by decide, by decide, by decide, by decide, by decide⟩

/-- C5 fails on the code when the microsecond counter wraps.  On the trace `envWrap`
the window `min(_maxSensorDelay_us + _maxRange_us, SIMPLEPINGER_MAXTIMEOUT)` is 23779
microseconds and `timeout_us` is `2^32 - 1`; the echo line is low at every access up
to tick 13, which is 36000 microseconds after the timeout was computed; the echo
starts after that, and `ping()` returns true with `SIMPLEPINGER_ERROR_NONE` and a new
`_lastRange` of 170 instead of false with `SIMPLEPINGER_ERROR_OOR`. -/
theorem C5_timeout_missed_on_wraparound :
    echoStartWindow sBuilt = 23779 ∧
    add32 (echoStartWindow sBuilt) ((envWrap 7).micros % U32) = 4294967295 ∧
    (∀ t, t < 14 → (envWrap t).echo = false) ∧
    (envWrap 13).micros = (envWrap 7).micros + 36000 ∧
    ping envWrap 5 sBuilt hwBuilt =
      some (true,
        { sBuilt with _lastRange := 170, _lastError := SIMPLEPINGER_ERROR_NONE },
        { tick := 19,
          log := hwBuilt.log ++
            [HwOp.readEcho, HwOp.writeTrigger true, HwOp.delayMicroseconds 11,
             HwOp.writeTrigger false, HwOp.readMicros,
             HwOp.readEcho, HwOp.readMicros, HwOp.readEcho, HwOp.readMicros,
             HwOp.readEcho, HwOp.readMicros, HwOp.readEcho, HwOp.readMicros,
             HwOp.readEcho, HwOp.readEcho, HwOp.readMicros] }) :=
  ⟨by decide, by decide, by decide, by decide, by decide⟩

/-- C8 fails on the code: for whatever value `uninit` the uninitialised `_lastRange`
holds, the history constructor, `setTriggerMode(1)`, `setMinTriggerPeriod(1000)`
contains no ping at all, and the first `ping()`, 500 ms later, returns true with
`SIMPLEPINGER_ERROR_SUBSTITUTE` while `getRange()` still returns the uninitialised
value: there is no previous error-free echo whose range it could be. -/
theorem C8_substitute_without_previous_echo (uninit : Nat) :
    ∃ s, runFromConstructor envBusy 5 uninit hwBoot
        [Call.setTriggerMode 1, Call.setMinTriggerPeriod 1000] = some (s, hwBuilt) ∧
      s._lastError = SIMPLEPINGER_ERROR_INVALID ∧
      s._lastRange = uninit % U16 ∧
      ping envBusy 5 s hwBuilt =
        some (true, { s with _lastError := SIMPLEPINGER_ERROR_SUBSTITUTE },
          hwBuilt.step HwOp.readMillis) ∧
      getRange { s with _lastError := SIMPLEPINGER_ERROR_SUBSTITUTE } =
        toInt16 (uninit % U16) := by
  refine ⟨{ sNonBlocking with _lastRange := uninit % U16 }, ?_, rfl, rfl, ?_, rfl⟩
  · unfold runFromConstructor
    rw [construct_eq]
    rfl
  · refine ping_nonblocking_soon envBusy 5 _ hwBuilt rfl ?_
    show sub32 ((envBusy 3).millis % U32) 940 < 1000
    decide

/-- C4. In every state reached from the two-pin constructor by a history of calls
(setters in any order, interleaved with pings) whose `setMaxRange` and
`setSpeedOfSound` arguments are 16-bit values and whose speeds are at least 1,
`_maxRange_us` is the quotient `(D * 2000) / S` of the most recently set maximum
range `D` (default 4000) and speed of sound `S` (default 340); and from such a state
`setMaxRange(D); setSpeedOfSound(S)` and `setSpeedOfSound(S); setMaxRange(D)` both
succeed and leave the same `_maxRange_us`, `(D * 2000) / S`. -/
theorem C4_maxRange_us_invariant (env : Nat → Sample) (fuel uninit : Nat) (hw0 : Hw)
    (cs : List Call) (s : SimplePinger) (hw : Hw)
    (hargs : ArgsInRange cs)
    (hrun : runFromConstructor env fuel uninit hw0 cs = some (s, hw)) :
    s._maxRange_us = lastMaxRange cs * 2000 / lastSpeedOfSound cs ∧
    ∀ D S, D < 65536 → 1 ≤ S → S < 65536 →
      ∃ a b,
        run env fuel [Call.setMaxRange D, Call.setSpeedOfSound S] (s, hw) = some (a, hw) ∧
        run env fuel [Call.setSpeedOfSound S, Call.setMaxRange D] (s, hw) = some (b, hw) ∧
        a._maxRange_us = D * 2000 / S ∧ b._maxRange_us = D * 2000 / S := by
  unfold runFromConstructor at hrun
  split at hrun
  · exact absurd hrun (by simp)
  · rename_i p hp
    have hp0 := construct_consistent hp
    have hcfg := run_config cs hp0 hargs hrun
    have hc : Consistent s := run_consistent cs hp0 hrun
    rw [construct_eq] at hp
    simp only [Option.some.injEq] at hp
    subst hp
    simp only at hcfg
    refine ⟨?_, ?_⟩
    · rw [hc.2.2.2, hcfg.1, hcfg.2]
      rfl
    · intro D S hD hS1 hS2
      have hDm : D % U16 = D := Nat.mod_eq_of_lt hD
      have hSm : S % U16 = S := Nat.mod_eq_of_lt hS2
      have hc1 : Consistent
          { s with _maxRange_mm := D % U16
                   _maxRange_us := D % U16 * 2000 / s._speedOfSound } :=
        ⟨hc.1, hc.2.1, by rw [hDm]; exact hD, rfl⟩
      have hc2 : Consistent
          { s with _speedOfSound := S % U16
                   _maxRange_us := s._maxRange_mm * 2000 / (S % U16) } :=
        ⟨by rw [hSm]; exact hS1, by rw [hSm]; exact hS2, hc.2.2.1, rfl⟩
      have ha : run env fuel [Call.setMaxRange D, Call.setSpeedOfSound S] (s, hw) =
          some ({ s with _speedOfSound := S % U16
                         _maxRange_mm := D % U16
                         _maxRange_us := D % U16 * 2000 / (S % U16) }, hw) := by
        simp only [run, call, setMaxRange_eq hc D]
        rw [setSpeedOfSound_eq hc1 (by omega)]
      have hb : run env fuel [Call.setSpeedOfSound S, Call.setMaxRange D] (s, hw) =
          some ({ s with _speedOfSound := S % U16
                         _maxRange_mm := D % U16
                         _maxRange_us := D % U16 * 2000 / (S % U16) }, hw) := by
        simp only [run, call, setSpeedOfSound_eq hc (by omega : S % U16 ≠ 0)]
        rw [setMaxRange_eq hc2 D]
      refine ⟨_, _, ha, hb, ?_, ?_⟩
      · simp only [hDm, hSm]
      · simp only [hDm, hSm]

/-- C4 on a history with both setters and a ping: set 1000 mm, ping, set 343 m/s. -/
theorem C4_maxRange_us_invariant_witness :
    ∃ s, ArgsInRange [Call.setMaxRange 1000, Call.ping, Call.setSpeedOfSound 343] ∧
      runFromConstructor envGood 5 7 hwBoot
        [Call.setMaxRange 1000, Call.ping, Call.setSpeedOfSound 343] = some (s, hwPinged) ∧
      s._maxRange_us = 5830 ∧
      s._maxRange_us =
        lastMaxRange [Call.setMaxRange 1000, Call.ping, Call.setSpeedOfSound 343] * 2000 /
          lastSpeedOfSound [Call.setMaxRange 1000, Call.ping, Call.setSpeedOfSound 343] :=
  ⟨{ sBuilt with _lastRange := 170, _lastError := SIMPLEPINGER_ERROR_NONE,
                 _speedOfSound := 343, _maxRange_mm := 1000, _maxRange_us := 5830 },
    by unfold ArgsInRange; decide, by decide, rfl,
    (C4_maxRange_us_invariant envGood 5 7 hwBoot
      [Call.setMaxRange 1000, Call.ping, Call.setSpeedOfSound 343] _ hwPinged
      (by unfold ArgsInRange; decide) (by decide)).1⟩

/-- C9. `_lastRange` is only updated by a successful measurement: every terminating
`ping()` leaves `_lastError` equal to one of the five codes NONE, SUBSTITUTE, UNREADY,
OOR, HARDFAIL (never INVALID), and unless that code is NONE `getRange()` returns
afterwards what it returned before; and after every setter call `getRange()` returns
what it returned before. -/
theorem C9_lastRange_only_on_success :
    (∀ (env : Nat → Sample) (fuel : Nat) (s s' : SimplePinger) (hw hw' : Hw) (b : Bool),
      ping env fuel s hw = some (b, s', hw') →
        (getLastError s' = SIMPLEPINGER_ERROR_NONE ∨
          getLastError s' = SIMPLEPINGER_ERROR_SUBSTITUTE ∨
          getLastError s' = SIMPLEPINGER_ERROR_UNREADY ∨
          getLastError s' = SIMPLEPINGER_ERROR_OOR ∨
          getLastError s' = SIMPLEPINGER_ERROR_HARDFAIL) ∧
        getLastError s' ≠ SIMPLEPINGER_ERROR_INVALID ∧
        (getLastError s' ≠ SIMPLEPINGER_ERROR_NONE → getRange s' = getRange s)) ∧
    (∀ (s s' : SimplePinger) (d : Nat), setMaxRange s d = some s' →
      getRange s' = getRange s) ∧
    (∀ (s s' : SimplePinger) (v : Nat), setSpeedOfSound s v = some s' →
      getRange s' = getRange s) ∧
    (∀ (s : SimplePinger) (m : Nat), getRange (setTriggerMode s m) = getRange s) ∧
    (∀ (s : SimplePinger) (ms : Nat), getRange (setMinTriggerPeriod s ms) = getRange s) ∧
    (∀ (s : SimplePinger) (q : Bool), getRange (setWaitUntilQuiet s q) = getRange s) := by
  refine ⟨?_, ?_, ?_, fun _ _ => rfl, fun _ _ => rfl, fun _ _ => rfl⟩
  · intro env fuel s s' hw hw' b h
    rcases ping_cases h with ⟨_, h1⟩ | ⟨_, h1⟩ | ⟨_, h1⟩ | ⟨_, h1⟩ | ⟨_, w, _, h1⟩
    · subst h1
      exact ⟨Or.inr (Or.inl rfl),
        by show SIMPLEPINGER_ERROR_SUBSTITUTE ≠ SIMPLEPINGER_ERROR_INVALID; decide, fun _ => rfl⟩
    · subst h1
      exact ⟨Or.inr (Or.inr (Or.inr (Or.inr rfl))),
        by show SIMPLEPINGER_ERROR_HARDFAIL ≠ SIMPLEPINGER_ERROR_INVALID; decide, fun _ => rfl⟩
    · subst h1
      exact ⟨Or.inr (Or.inr (Or.inl rfl)),
        by show SIMPLEPINGER_ERROR_UNREADY ≠ SIMPLEPINGER_ERROR_INVALID; decide, fun _ => rfl⟩
    · subst h1
      exact ⟨Or.inr (Or.inr (Or.inr (Or.inl rfl))),
        by show SIMPLEPINGER_ERROR_OOR ≠ SIMPLEPINGER_ERROR_INVALID; decide, fun _ => rfl⟩
    · subst h1
      exact ⟨Or.inl rfl,
        by show SIMPLEPINGER_ERROR_NONE ≠ SIMPLEPINGER_ERROR_INVALID; decide, fun hne => absurd rfl hne⟩
  · intro s s' d h
    unfold setMaxRange at h
    split at h
    · exact absurd h (by simp)
    · simp only [Option.some.injEq] at h
      subst h
      rfl
  · intro s s' v h
    unfold setSpeedOfSound at h
    split at h
    · exact absurd h (by simp)
    · simp only [Option.some.injEq] at h
      subst h
      rfl

/-- C9 on two calls: a ping that ends with UNREADY on the trace `envBusy`, and
`setMaxRange(1000)`; `getRange()` keeps returning 7. -/
theorem C9_lastRange_only_on_success_witness :
    ping envBusy 5 sBuilt hwBuilt =
      some (false, { sBuilt with _lastError := SIMPLEPINGER_ERROR_UNREADY },
        hwBuilt.step HwOp.readEcho) ∧
    getRange sBuilt = 7 ∧
    getRange { sBuilt with _lastError := SIMPLEPINGER_ERROR_UNREADY } = getRange sBuilt ∧
    getRange { sBuilt with _maxRange_mm := 1000, _maxRange_us := 5882 } = getRange sBuilt :=
  ⟨by decide, by decide,
    (C9_lastRange_only_on_success.1 envBusy 5 sBuilt _ hwBuilt _ false
      (by decide : ping envBusy 5 sBuilt hwBuilt =
        some (false, { sBuilt with _lastError := SIMPLEPINGER_ERROR_UNREADY },
          hwBuilt.step HwOp.readEcho))).2.2 (by decide),
    C9_lastRange_only_on_success.2.1 sBuilt _ 1000 (by decide)⟩

/-- C10. For every maximum range `D` in 0..65535, speed of sound `S` in 1..65535 and
echo width `W ≤ (D * 2000) / S`: `setMaxRange` / `setSpeedOfSound` compute
`_maxRange_us = (D * 2000) / S` with `D * 2000 < 2^31`; the product `W * S` does not
exceed `D * 2000`, so the 32-bit product of line 121 does not wrap; the range stored
by line 121 is `(W * S) / 2000`, at most `D`, hence below `2^16` and not truncated;
and in any object so configured a `ping()` that ends with SIMPLEPINGER_ERROR_NONE
leaves `_lastRange ≤ D`. -/
theorem C10_range_within_max (D S W : Nat) (hD : D ≤ 65535) (hS1 : 1 ≤ S)
    (hS2 : S ≤ 65535) (hW : W ≤ D * 2000 / S) :
    roundTrip_us D S = some (D * 2000 / S) ∧
    D * 2000 < 2147483648 ∧
    W * S ≤ D * 2000 ∧
    mul32 W S = W * S ∧
    rangeOfEcho W S = W * S / 2000 ∧
    rangeOfEcho W S ≤ D ∧
    rangeOfEcho W S < 65536 ∧
    ∀ (env : Nat → Sample) (fuel : Nat) (s s' : SimplePinger) (hw hw' : Hw) (b : Bool),
      s._maxRange_mm = D → s._speedOfSound = S → s._maxRange_us = D * 2000 / S →
      ping env fuel s hw = some (b, s', hw') → s'._lastError = SIMPLEPINGER_ERROR_NONE →
      s'._lastRange ≤ D := by
  have hc : Consistent
      { sBuilt with _speedOfSound := S
                    _maxRange_mm := D
                    _maxRange_us := D * 2000 / S } := ⟨hS1, by
      show S < 65536
      omega, by
      show D < 65536
      omega, rfl⟩
  have hr := rangeOfEcho_exact hc (w := W) hW
  simp only at hr
  refine ⟨roundTrip_us_eq (by omega) hS1 (by omega), by omega, hr.1, ?_, hr.2.1, hr.2.2,
    by omega, ?_⟩
  · unfold mul32 U32
    exact Nat.mod_eq_of_lt (by omega)
  · intro env fuel s s' hw hw' b hmm hv hus hping herr
    have hcs : Consistent s := ⟨by omega, by omega, by omega, by rw [hus, hmm, hv]⟩
    rcases ping_cases hping with ⟨_, h1⟩ | ⟨_, h1⟩ | ⟨_, h1⟩ | ⟨_, h1⟩ | ⟨_, w, hw1, h1⟩
    · subst h1
      exact absurd herr (by show ¬ SIMPLEPINGER_ERROR_SUBSTITUTE = SIMPLEPINGER_ERROR_NONE; decide)
    · subst h1
      exact absurd herr (by show ¬ SIMPLEPINGER_ERROR_HARDFAIL = SIMPLEPINGER_ERROR_NONE; decide)
    · subst h1
      exact absurd herr (by show ¬ SIMPLEPINGER_ERROR_UNREADY = SIMPLEPINGER_ERROR_NONE; decide)
    · subst h1
      exact absurd herr (by show ¬ SIMPLEPINGER_ERROR_OOR = SIMPLEPINGER_ERROR_NONE; decide)
    · subst h1
      have := (rangeOfEcho_exact hcs hw1).2.2
      simp only
      omega

/-- C10 at the default configuration: 4000 mm, 340 m/s, the widest admitted echo of
23529 microseconds. -/
theorem C10_range_within_max_witness :
    roundTrip_us 4000 340 = some 23529 ∧ rangeOfEcho 23529 340 = 3999 ∧
    mul32 23529 340 = 7999860 :=
  ⟨by decide, by decide,
    (C10_range_within_max 4000 340 23529 (by decide) (by decide) (by decide)
      (by decide)).2.2.2.1⟩

end SimplePinger
